import Mathlib

/-!
Verification of the persistence/merge subsystem of the `atatl-25` backend
(`backend/agent_logic/tools.py` and the aggregation endpoints of
`backend/main.py`).

Python dictionaries holding JSON-like data are embedded as insertion-ordered
association lists over an inductive `Value` type.  Stateful interaction with
the Google Cloud Storage client is embedded as explicit state passing over a
`Store` (the blobs currently held remotely and in the local fallback
directory) together with an `Env` oracle describing which storage operations
succeed.  Python exceptions are embedded as `Except String`.
-/

namespace Atatl

/-- JSON-like Python values as they occur in the records handled by
`tools.py`: `None`, strings, integers, lists, string-keyed dictionaries, and
(`datetime` objects, which can appear through `_merge_customer_data`'s
timestamp branch) naive datetimes. -/
inductive Value where
  | null : Value
  | str (s : String) : Value
  | int (n : Int) : Value
  | list (l : List Value) : Value
  | dict (d : List (String × Value)) : Value
  | dt (year month day hour minute second microsecond : Nat) : Value

/-- A Python dict with string keys: an insertion-ordered association list. -/
abbrev Dict := List (String × Value)

mutual

/-- Structural (Python `==`) equality test on values. -/
def Value.beq : Value → Value → Bool
  | .null, .null => true
  | .str a, .str b => a = b
  | .int a, .int b => a = b
  | .list a, .list b => Value.beqList a b
  | .dict a, .dict b => Value.beqDict a b
  | .dt a b c d e f g, .dt a2 b2 c2 d2 e2 f2 g2 =>
      a = a2 && b = b2 && c = c2 && d = d2 && e = e2 && f = f2 && g = g2
  | _, _ => false

/-- Elementwise equality of value lists. -/
def Value.beqList : List Value → List Value → Bool
  | [], [] => true
  | a :: as, b :: bs => Value.beq a b && Value.beqList as bs
  | _, _ => false

/-- Entrywise equality of dictionaries. -/
def Value.beqDict : List (String × Value) → List (String × Value) → Bool
  | [], [] => true
  | (k1, v1) :: as, (k2, v2) :: bs => k1 = k2 && Value.beq v1 v2 && Value.beqDict as bs
  | _, _ => false

end

mutual

theorem Value.beq_iff : ∀ a b : Value, Value.beq a b = true ↔ a = b
  | .null, .null => by simp [Value.beq]
  | .str a, .str b => by simp [Value.beq]
  | .int a, .int b => by simp [Value.beq]
  | .list a, .list b => by
      simp only [Value.beq, Value.list.injEq]
      exact Value.beqList_iff a b
  | .dict a, .dict b => by
      simp only [Value.beq, Value.dict.injEq]
      exact Value.beqDict_iff a b
  | .dt a b c d e f g, .dt a2 b2 c2 d2 e2 f2 g2 => by
      simp [Value.beq, Bool.and_assoc, and_assoc]
  | .null, .str _ | .null, .int _ | .null, .list _ | .null, .dict _
  | .null, .dt _ _ _ _ _ _ _
  | .str _, .null | .str _, .int _ | .str _, .list _ | .str _, .dict _
  | .str _, .dt _ _ _ _ _ _ _
  | .int _, .null | .int _, .str _ | .int _, .list _ | .int _, .dict _
  | .int _, .dt _ _ _ _ _ _ _
  | .list _, .null | .list _, .str _ | .list _, .int _ | .list _, .dict _
  | .list _, .dt _ _ _ _ _ _ _
  | .dict _, .null | .dict _, .str _ | .dict _, .int _ | .dict _, .list _
  | .dict _, .dt _ _ _ _ _ _ _
  | .dt _ _ _ _ _ _ _, .null | .dt _ _ _ _ _ _ _, .str _
  | .dt _ _ _ _ _ _ _, .int _ | .dt _ _ _ _ _ _ _, .list _
  | .dt _ _ _ _ _ _ _, .dict _ => by simp [Value.beq]

theorem Value.beqList_iff : ∀ a b : List Value, Value.beqList a b = true ↔ a = b
  | [], [] => by simp [Value.beqList]
  | a :: as, b :: bs => by
      simp only [Value.beqList, Bool.and_eq_true, List.cons.injEq]
      exact and_congr (Value.beq_iff a b) (Value.beqList_iff as bs)
  | [], _ :: _ => by simp [Value.beqList]
  | _ :: _, [] => by simp [Value.beqList]

theorem Value.beqDict_iff : ∀ a b : List (String × Value), Value.beqDict a b = true ↔ a = b
  | [], [] => by simp [Value.beqDict]
  | (k1, v1) :: as, (k2, v2) :: bs => by
      simp only [Value.beqDict, Bool.and_eq_true, List.cons.injEq, Prod.mk.injEq,
        decide_eq_true_eq, and_assoc]
      exact and_congr Iff.rfl (and_congr (Value.beq_iff v1 v2) (Value.beqDict_iff as bs))
  | [], _ :: _ => by simp [Value.beqDict]
  | _ :: _, [] => by simp [Value.beqDict]

end

instance : DecidableEq Value := fun a b =>
  decidable_of_iff (Value.beq a b = true) (Value.beq_iff a b)

instance {ε α : Type} [DecidableEq ε] [DecidableEq α] : DecidableEq (Except ε α) := fun x y =>
  match x, y with
  | .ok a, .ok b => if h : a = b then .isTrue (by rw [h]) else .isFalse (by simp [h])
  | .error a, .error b => if h : a = b then .isTrue (by rw [h]) else .isFalse (by simp [h])
  | .ok _, .error _ => .isFalse (by simp)
  | .error _, .ok _ => .isFalse (by simp)

/-- Python truthiness (`bool(v)`) on the embedded values. -/
def truthy : Value → Bool
  | .null => false
  | .str s => s ≠ ""
  | .int n => n ≠ 0
  | .list l => l ≠ []
  | .dict d => d ≠ []
  | .dt _ _ _ _ _ _ _ => true

/-- Python `a or b`: `a` when truthy, otherwise `b`. -/
def pyOr (a b : Value) : Value := if truthy a then a else b

/-- Python `a + b` on embedded values (`TypeError` on mismatched kinds). -/
def pyAdd : Value → Value → Except String Value
  | .int a, .int b => .ok (.int (a + b))
  | .str a, .str b => .ok (.str (a ++ b))
  | .list a, .list b => .ok (.list (a ++ b))
  | _, _ => .error "TypeError: unsupported operand types"

/-- Association-list lookup: first binding of a key, if any. -/
def assocGet {α : Type} : List (String × α) → String → Option α
  | [], _ => none
  | (k, v) :: rest, key => if k = key then some v else assocGet rest key

/-- Association-list update: Python `d[key] = v` semantics — replace the
existing binding in place, or append a fresh binding at the end. -/
def assocSet {α : Type} : List (String × α) → String → α → List (String × α)
  | [], key, v => [(key, v)]
  | (k, w) :: rest, key, v =>
      if k = key then (k, v) :: rest else (k, w) :: assocSet rest key v

/-- `dict.get(key)`: the stored value, or `None` when the key is absent. -/
def pyGet (d : Dict) (key : String) : Value := (assocGet d key).getD .null

/-- Python `key in dict`. -/
def containsKey (d : Dict) (key : String) : Bool := (assocGet d key).isSome

/-- The keys of a dictionary, in insertion order. -/
def dictKeys (d : Dict) : List String := d.map Prod.fst

theorem assocGet_assocSet_self {α : Type} (d : List (String × α)) (k : String) (v : α) :
    assocGet (assocSet d k v) k = some v := by
  induction d with
  | nil => simp [assocGet, assocSet]
  | cons hd tl ih =>
      obtain ⟨k0, v0⟩ := hd
      by_cases h : k0 = k
      · simp [assocGet, assocSet, h]
      · simp [assocGet, assocSet, h, ih]

theorem assocGet_assocSet_ne {α : Type} (d : List (String × α)) (k k2 : String) (v : α)
    (h : k2 ≠ k) : assocGet (assocSet d k v) k2 = assocGet d k2 := by
  induction d with
  | nil => simp [assocGet, assocSet, Ne.symm h]
  | cons hd tl ih =>
      obtain ⟨k0, v0⟩ := hd
      by_cases hk : k0 = k
      · subst hk
        simp [assocGet, assocSet, Ne.symm h]
      · by_cases hk2 : k0 = k2
        · subst hk2
          simp [assocGet, assocSet, hk]
        · simp [assocGet, assocSet, hk, hk2, ih]

theorem assocGet_assocSet_isSome {α : Type} (d : List (String × α)) (k k2 : String) (v : α)
    (h : (assocGet d k2).isSome) : (assocGet (assocSet d k v) k2).isSome := by
  by_cases hk : k2 = k
  · subst hk; simp [assocGet_assocSet_self]
  · rw [assocGet_assocSet_ne d k k2 v hk]; exact h

/-- ASCII action of Python `str.lower()` on one character. -/
def pyLowerChar (c : Char) : Char :=
  if 'A' ≤ c ∧ c ≤ 'Z' then Char.ofNat (c.toNat + 32) else c

/-- Python `str.lower()` (modelled on its ASCII action). -/
def pyLowerStr (s : String) : String := ⟨s.data.map pyLowerChar⟩

/-- The whitespace characters removed by Python `str.strip()`. -/
def isPySpace (c : Char) : Bool :=
  c = ' ' ∨ c = '\t' ∨ c = '\n' ∨ c = '\x0d' ∨ c = '\x0b' ∨ c = '\x0c'

/-- Python `str.strip()`: drop leading and trailing whitespace. -/
def pyStrip (s : String) : String :=
  ⟨((s.data.dropWhile isPySpace).reverse.dropWhile isPySpace).reverse⟩

/-- `s.lower().strip()`, the normal form used by `_find_existing_customer`. -/
def lowerStrip (s : String) : String := pyStrip (pyLowerStr s)

/-- `s.strip().lower()`, the normal form used by `_normalize_category`. -/
def stripLower (s : String) : String := pyLowerStr (pyStrip s)

/-- A naive `datetime.datetime` as produced by `datetime.fromisoformat`. -/
structure DateTime where
  year : Nat
  month : Nat
  day : Nat
  hour : Nat
  minute : Nat
  second : Nat
  microsecond : Nat
deriving DecidableEq

/-- The `Value` embedding of a Python `datetime` object. -/
def Value.ofDT (d : DateTime) : Value :=
  .dt d.year d.month d.day d.hour d.minute d.second d.microsecond

/-- `datetime` comparison: field-lexicographic, as for naive datetimes. -/
def DateTime.lt (a b : DateTime) : Bool :=
  if a.year ≠ b.year then a.year < b.year
  else if a.month ≠ b.month then a.month < b.month
  else if a.day ≠ b.day then a.day < b.day
  else if a.hour ≠ b.hour then a.hour < b.hour
  else if a.minute ≠ b.minute then a.minute < b.minute
  else if a.second ≠ b.second then a.second < b.second
  else a.microsecond < b.microsecond

theorem DateTime.lt_irrefl (a : DateTime) : DateTime.lt a a = false := by
  simp [DateTime.lt]

theorem DateTime.lt_asymm (a b : DateTime) (h : DateTime.lt a b = true) :
    DateTime.lt b a = false := by
  unfold DateTime.lt at h ⊢
  by_cases hy : a.year = b.year
  · simp [hy] at h ⊢
    by_cases hmo : a.month = b.month
    · simp [hmo] at h ⊢
      by_cases hd : a.day = b.day
      · simp [hd] at h ⊢
        by_cases hh : a.hour = b.hour
        · simp [hh] at h ⊢
          by_cases hmi : a.minute = b.minute
          · simp [hmi] at h ⊢
            by_cases hs : a.second = b.second
            · simp [hs] at h ⊢
              omega
            · simp [hs, Ne.symm hs] at h ⊢
              omega
          · simp [hmi, Ne.symm hmi] at h ⊢
            omega
        · simp [hh, Ne.symm hh] at h ⊢
          omega
      · simp [hd, Ne.symm hd] at h ⊢
        omega
    · simp [hmo, Ne.symm hmo] at h ⊢
      omega
  · simp [hy, Ne.symm hy] at h ⊢
    omega

/-- Numeric value of an ASCII digit character. -/
def digitVal (c : Char) : Option Nat :=
  if '0' ≤ c ∧ c ≤ '9' then some (c.toNat - '0'.toNat) else none

/-- The ASCII digit character of `n < 10`. -/
def digitChar (n : Nat) : Char := Char.ofNat ('0'.toNat + n)

/-- Two-digit field of an ISO 8601 string. -/
def twoDigits (a b : Char) : Option Nat :=
  match digitVal a, digitVal b with
  | some x, some y => some (10 * x + y)
  | _, _ => none

/-- Four-digit field of an ISO 8601 string. -/
def fourDigits (a b c d : Char) : Option Nat :=
  match digitVal a, digitVal b, digitVal c, digitVal d with
  | some x, some y, some z, some w => some (1000 * x + 100 * y + 10 * z + w)
  | _, _, _, _ => none

/-- Six-digit fractional-seconds field of an ISO 8601 string. -/
def sixDigits (a b c d e f : Char) : Option Nat :=
  match digitVal a, digitVal b, digitVal c, digitVal d, digitVal e, digitVal f with
  | some x, some y, some z, some w, some v, some u =>
      some (100000 * x + 10000 * y + 1000 * z + 100 * w + 10 * v + u)
  | _, _, _, _, _, _ => none

/-- Field-range validation performed by the `datetime` constructor.  (Day
validity is modelled by the 1–31 bound; the per-month day count is not
modelled.) -/
def mkDateTime (y mo d h mi s us : Nat) : Option DateTime :=
  if 1 ≤ y ∧ y ≤ 9999 ∧ 1 ≤ mo ∧ mo ≤ 12 ∧ 1 ≤ d ∧ d ≤ 31 ∧
      h ≤ 23 ∧ mi ≤ 59 ∧ s ≤ 59 ∧ us ≤ 999999 then
    some ⟨y, mo, d, h, mi, s, us⟩
  else none

/-- Character-level core of `fromisoformat`. -/
def parseIsoChars : List Char → Option DateTime
  | [y1, y2, y3, y4, p1, m1, m2, p2, g1, g2] =>
      if p1 = '-' ∧ p2 = '-' then
        match fourDigits y1 y2 y3 y4, twoDigits m1 m2, twoDigits g1 g2 with
        | some y, some mo, some dy => mkDateTime y mo dy 0 0 0 0
        | _, _, _ => none
      else none
  | [y1, y2, y3, y4, p1, m1, m2, p2, g1, g2, sep, h1, h2, c1, i1, i2, c2, s1, s2] =>
      if (p1 = '-' ∧ p2 = '-') ∧ (sep = 'T' ∨ sep = ' ') ∧ c1 = ':' ∧ c2 = ':' then
        match fourDigits y1 y2 y3 y4, twoDigits m1 m2, twoDigits g1 g2,
            twoDigits h1 h2, twoDigits i1 i2, twoDigits s1 s2 with
        | some y, some mo, some dy, some h, some mi, some sec =>
            mkDateTime y mo dy h mi sec 0
        | _, _, _, _, _, _ => none
      else none
  | [y1, y2, y3, y4, p1, m1, m2, p2, g1, g2, sep, h1, h2, c1, i1, i2, c2, s1, s2,
      dot, u1, u2, u3, u4, u5, u6] =>
      if (p1 = '-' ∧ p2 = '-') ∧ (sep = 'T' ∨ sep = ' ') ∧ c1 = ':' ∧ c2 = ':' ∧ dot = '.' then
        match fourDigits y1 y2 y3 y4, twoDigits m1 m2, twoDigits g1 g2,
            twoDigits h1 h2, twoDigits i1 i2, twoDigits s1 s2,
            sixDigits u1 u2 u3 u4 u5 u6 with
        | some y, some mo, some dy, some h, some mi, some sec, some us =>
            mkDateTime y mo dy h mi sec us
        | _, _, _, _, _, _, _ => none
      else none
  | _ => none

/-- `datetime.fromisoformat` on the formats the program produces and
consumes: `YYYY-MM-DD`, optionally followed by `THH:MM:SS` (with `T` or a
space as separator), optionally followed by `.ffffff`.  Timezone-aware
strings are outside the model.  `none` embeds the `ValueError` raise. -/
def fromisoformat (s : String) : Option DateTime := parseIsoChars s.data

/-- Zero-padded two-digit rendering. -/
def pad2 (n : Nat) : List Char := [digitChar (n / 10), digitChar (n % 10)]

/-- Zero-padded four-digit rendering. -/
def pad4 (n : Nat) : List Char :=
  [digitChar (n / 1000), digitChar (n / 100 % 10), digitChar (n / 10 % 10), digitChar (n % 10)]

/-- Zero-padded six-digit rendering. -/
def pad6 (n : Nat) : List Char :=
  [digitChar (n / 100000), digitChar (n / 10000 % 10), digitChar (n / 1000 % 10),
   digitChar (n / 100 % 10), digitChar (n / 10 % 10), digitChar (n % 10)]

/-- `datetime.isoformat()`: `YYYY-MM-DDTHH:MM:SS`, with `.ffffff` appended
exactly when the microsecond field is non-zero. -/
def isoformat (d : DateTime) : String :=
  ⟨pad4 d.year ++ '-' :: pad2 d.month ++ '-' :: pad2 d.day ++ 'T' :: pad2 d.hour ++
    ':' :: pad2 d.minute ++ ':' :: pad2 d.second ++
    (if d.microsecond = 0 then [] else '.' :: pad6 d.microsecond)⟩

/-- The field ranges guaranteed for every `DateTime` that `fromisoformat`
returns. -/
def DateTime.Valid (d : DateTime) : Prop :=
  1 ≤ d.year ∧ d.year ≤ 9999 ∧ 1 ≤ d.month ∧ d.month ≤ 12 ∧ 1 ≤ d.day ∧ d.day ≤ 31 ∧
    d.hour ≤ 23 ∧ d.minute ≤ 59 ∧ d.second ≤ 59 ∧ d.microsecond ≤ 999999

theorem digitVal_digitChar (n : Nat) (h : n < 10) : digitVal (digitChar n) = some n := by
  interval_cases n <;> decide

theorem twoDigits_pad2 (n : Nat) (h : n ≤ 99) :
    twoDigits (digitChar (n / 10)) (digitChar (n % 10)) = some n := by
  rw [twoDigits, digitVal_digitChar (n / 10) (by omega), digitVal_digitChar (n % 10) (by omega)]
  simp; omega

theorem fourDigits_pad4 (n : Nat) (h : n ≤ 9999) :
    fourDigits (digitChar (n / 1000)) (digitChar (n / 100 % 10)) (digitChar (n / 10 % 10))
      (digitChar (n % 10)) = some n := by
  rw [fourDigits, digitVal_digitChar (n / 1000) (by omega), digitVal_digitChar (n / 100 % 10)
    (by omega), digitVal_digitChar (n / 10 % 10) (by omega), digitVal_digitChar (n % 10) (by omega)]
  simp; omega

theorem sixDigits_pad6 (n : Nat) (h : n ≤ 999999) :
    sixDigits (digitChar (n / 100000)) (digitChar (n / 10000 % 10)) (digitChar (n / 1000 % 10))
      (digitChar (n / 100 % 10)) (digitChar (n / 10 % 10)) (digitChar (n % 10)) = some n := by
  rw [sixDigits, digitVal_digitChar (n / 100000) (by omega),
    digitVal_digitChar (n / 10000 % 10) (by omega), digitVal_digitChar (n / 1000 % 10) (by omega),
    digitVal_digitChar (n / 100 % 10) (by omega), digitVal_digitChar (n / 10 % 10) (by omega),
    digitVal_digitChar (n % 10) (by omega)]
  simp; omega

theorem parseIsoChars_full (y1 y2 y3 y4 m1 m2 g1 g2 a1 a2 i1 i2 s1 s2 : Char) :
    parseIsoChars
        [y1, y2, y3, y4, '-', m1, m2, '-', g1, g2, 'T', a1, a2, ':', i1, i2, ':', s1, s2] =
      (match fourDigits y1 y2 y3 y4, twoDigits m1 m2, twoDigits g1 g2,
          twoDigits a1 a2, twoDigits i1 i2, twoDigits s1 s2 with
        | some y, some mo, some dy, some h, some mi, some sec => mkDateTime y mo dy h mi sec 0
        | _, _, _, _, _, _ => none) := by
  simp [parseIsoChars]

theorem parseIsoChars_frac (y1 y2 y3 y4 m1 m2 g1 g2 a1 a2 i1 i2 s1 s2 u1 u2 u3 u4 u5 u6 :
      Char) :
    parseIsoChars
        [y1, y2, y3, y4, '-', m1, m2, '-', g1, g2, 'T', a1, a2, ':', i1, i2, ':', s1, s2,
          '.', u1, u2, u3, u4, u5, u6] =
      (match fourDigits y1 y2 y3 y4, twoDigits m1 m2, twoDigits g1 g2,
          twoDigits a1 a2, twoDigits i1 i2, twoDigits s1 s2, sixDigits u1 u2 u3 u4 u5 u6 with
        | some y, some mo, some dy, some h, some mi, some sec, some us =>
            mkDateTime y mo dy h mi sec us
        | _, _, _, _, _, _, _ => none) := by
  simp [parseIsoChars]

theorem fromisoformat_isoformat (d : DateTime) (h : d.Valid) :
    fromisoformat (isoformat d) = some d := by
  obtain ⟨y, mo, dy, hh, mi, s, us⟩ := d
  have h1 : 1 ≤ y := h.1
  have h2 : y ≤ 9999 := h.2.1
  have h3 : 1 ≤ mo := h.2.2.1
  have h4 : mo ≤ 12 := h.2.2.2.1
  have h5 : 1 ≤ dy := h.2.2.2.2.1
  have h6 : dy ≤ 31 := h.2.2.2.2.2.1
  have h7 : hh ≤ 23 := h.2.2.2.2.2.2.1
  have h8 : mi ≤ 59 := h.2.2.2.2.2.2.2.1
  have h9 : s ≤ 59 := h.2.2.2.2.2.2.2.2.1
  have h10 : us ≤ 999999 := h.2.2.2.2.2.2.2.2.2
  by_cases hus : us = 0
  · subst hus
    show parseIsoChars (String.data ⟨_⟩) = _
    simp only [isoformat, pad4, pad2, pad6, String.data, eq_self_iff_true, ite_true,
      List.cons_append, List.nil_append, List.append_nil]
    rw [parseIsoChars_full]
    rw [fourDigits_pad4 y (by omega), twoDigits_pad2 mo (by omega), twoDigits_pad2 dy (by omega),
      twoDigits_pad2 hh (by omega), twoDigits_pad2 mi (by omega), twoDigits_pad2 s (by omega)]
    simp only [mkDateTime]
    rw [if_pos (by omega)]
  · show parseIsoChars (String.data ⟨_⟩) = _
    simp only [isoformat, pad4, pad2, pad6, String.data, hus, ite_false, List.cons_append,
      List.nil_append, List.append_nil]
    rw [parseIsoChars_frac]
    rw [fourDigits_pad4 y (by omega), twoDigits_pad2 mo (by omega), twoDigits_pad2 dy (by omega),
      twoDigits_pad2 hh (by omega), twoDigits_pad2 mi (by omega), twoDigits_pad2 s (by omega),
      sixDigits_pad6 us (by omega)]
    simp only [mkDateTime]
    rw [if_pos (by omega)]

theorem fromisoformat_valid (s : String) (d : DateTime) (h : fromisoformat s = some d) :
    d.Valid := by
  unfold fromisoformat parseIsoChars at h
  split at h
  · split_ifs at h
    split at h
    · simp only [mkDateTime] at h
      split_ifs at h with hr
      · obtain rfl : _ = d := Option.some.inj h
        exact ⟨hr.1, hr.2.1, hr.2.2.1, hr.2.2.2.1, hr.2.2.2.2.1, hr.2.2.2.2.2.1,
          hr.2.2.2.2.2.2.1, hr.2.2.2.2.2.2.2.1, hr.2.2.2.2.2.2.2.2.1, hr.2.2.2.2.2.2.2.2.2⟩
    · exact absurd h (by simp)
  · split_ifs at h
    split at h
    · simp only [mkDateTime] at h
      split_ifs at h with hr
      · obtain rfl : _ = d := Option.some.inj h
        exact ⟨hr.1, hr.2.1, hr.2.2.1, hr.2.2.2.1, hr.2.2.2.2.1, hr.2.2.2.2.2.1,
          hr.2.2.2.2.2.2.1, hr.2.2.2.2.2.2.2.1, hr.2.2.2.2.2.2.2.2.1, hr.2.2.2.2.2.2.2.2.2⟩
    · exact absurd h (by simp)
  · split_ifs at h
    split at h
    · simp only [mkDateTime] at h
      split_ifs at h with hr
      · obtain rfl : _ = d := Option.some.inj h
        exact ⟨hr.1, hr.2.1, hr.2.2.1, hr.2.2.2.1, hr.2.2.2.2.1, hr.2.2.2.2.2.1,
          hr.2.2.2.2.2.2.1, hr.2.2.2.2.2.2.2.1, hr.2.2.2.2.2.2.2.2.1, hr.2.2.2.2.2.2.2.2.2⟩
    · exact absurd h (by simp)
  · exact absurd h (by simp)

/-- Embed an optional Python string. -/
def optStr : Option String → Value
  | none => .null
  | some s => .str s

/-- `VALID_CUSTOMER_CATEGORIES` from `tools.py`. -/
def VALID_CUSTOMER_CATEGORIES : List String := ["Prospective", "Current", "Inactive"]

/-- The `category_map` synonym table inside `_normalize_category`. -/
def category_map (s : String) : Option String :=
  if s = "prospective" then some "Prospective"
  else if s = "current" then some "Current"
  else if s = "active" then some "Current"
  else if s = "inactive" then some "Inactive"
  else none

/-- `_normalize_category(category)`: `None` and `""` (falsy) normalize to
`None`; otherwise the input is stripped and lowercased, looked up in the
synonym table, then compared against the lowercased canonical categories
(that loop is unreachable given the table, but kept from the source);
anything unrecognized normalizes to `None`. -/
def normalize_category (category : Option String) : Option String :=
  match category with
  | none => none
  | some s =>
      if s = "" then none
      else
        match category_map (stripLower s) with
        | some normalized => some normalized
        | none =>
            if stripLower s = pyLowerStr "Prospective" then some "Prospective"
            else if stripLower s = pyLowerStr "Current" then some "Current"
            else if stripLower s = pyLowerStr "Inactive" then some "Inactive"
            else none

/-- `_normalize_category` applied to an arbitrary stored value, as the
`category` branch of `_merge_customer_data` may do: falsy values
(`None`, `""`, `0`, `[]`, `{}`) normalize to `None`; truthy non-strings
raise `AttributeError` at `.strip()`. -/
def normalizeCategoryValue : Value → Except String Value
  | .null => .ok .null
  | .str s => .ok (optStr (normalize_category (some s)))
  | v => if truthy v then .error "AttributeError" else .ok .null

/-- `datetime.fromisoformat` applied to a stored value: non-strings raise
`TypeError`, unparsable strings raise `ValueError`. -/
def pyParseIso : Value → Except String DateTime
  | .str s =>
      match fromisoformat s with
      | some d => .ok d
      | none => .error "ValueError: invalid isoformat string"
  | _ => .error "TypeError: fromisoformat argument must be str"

/-- Python `list` iteration in the merge helpers: the records the program
writes hold lists here; iterating any other value raises. -/
def asList : Value → Except String (List Value)
  | .list l => .ok l
  | _ => .error "TypeError: value is not a list"

/-- Values `set(...)` accepts (lists and dicts are unhashable). -/
def hashable : Value → Bool
  | .list _ => false
  | .dict _ => false
  | _ => true

/-- Set insertion, modelled as first-occurrence-ordered dedup. -/
def insertSet (l : List Value) (v : Value) : List Value :=
  if v ∈ l then l else l ++ [v]

/-- `list(set(xs))`: deduplicate, raising on unhashable elements.  (CPython
enumerates a set in unspecified order; the model fixes first-occurrence
order.) -/
def pySetDedup (acc : List Value) : List Value → Except String (List Value)
  | [] => .ok acc
  | v :: rest =>
      if hashable v then pySetDedup (insertSet acc v) rest
      else .error "TypeError: unhashable type"

/-- Record into `existing_ids` the truthy `order_id` and `order_number` of
one order, as the `prevOrders` branch does. -/
def addOrderIds (ids : List Value) (o : Value) : Except String (List Value) :=
  match o with
  | .dict d =>
      let ids1 := if truthy (pyGet d "order_id") then insertSet ids (pyGet d "order_id") else ids
      .ok (if truthy (pyGet d "order_number") then insertSet ids1 (pyGet d "order_number")
            else ids1)
  | _ => .error "AttributeError: order is not a dict"

/-- The first loop of the `prevOrders` branch: ids of the existing orders. -/
def collectOrderIds : List Value → List Value → Except String (List Value)
  | ids, [] => .ok ids
  | ids, o :: rest =>
      match addOrderIds ids o with
      | .error e => .error e
      | .ok ids2 => collectOrderIds ids2 rest

/-- `order.get("order_id") or order.get("order_number")`. -/
def derivedOrderId : Value → Except String Value
  | .dict d => .ok (pyOr (pyGet d "order_id") (pyGet d "order_number"))
  | _ => .error "AttributeError: order is not a dict"

/-- The second loop of the `prevOrders` branch: append each new order whose
derived identifier is truthy and unseen (recording both its ids), append
identifier-less orders unconditionally, and drop the rest. -/
def mergeNewOrders : List Value → List Value → List Value → Except String (List Value)
  | _, acc, [] => .ok acc
  | ids, acc, o :: rest =>
      match derivedOrderId o with
      | .error e => .error e
      | .ok did =>
          if truthy did ∧ did ∉ ids then
            match addOrderIds ids o with
            | .error e => .error e
            | .ok ids2 => mergeNewOrders ids2 (acc ++ [o]) rest
          else if ¬ truthy did then mergeNewOrders ids (acc ++ [o]) rest
          else mergeNewOrders ids acc rest

/-- The whole `prevOrders` branch body on the two order lists. -/
def mergePrevOrders (exOrders newOrders : List Value) : Except String (List Value) :=
  match collectOrderIds [] exOrders with
  | .error e => .error e
  | .ok ids => mergeNewOrders ids exOrders newOrders

/-- One iteration of `_merge_customer_data`'s `for key, new_value in
new.items()` loop, mutating `merged` (note that the `timestamp`,
`rewardPoints`, `prevOrders` and `interests` branches read the original
`existing` dict, while `category` and the generic branches read
`merged`). -/
def processKey (existing merged : Dict) (key : String) (newValue : Value) :
    Except String Dict :=
  if key = "timestamp" then
    if truthy (pyGet existing "timestamp") ∧ truthy newValue then
      match pyParseIso (pyGet existing "timestamp") with
      | .error e => .error e
      | .ok existingTime =>
          match pyParseIso newValue with
          | .error e => .error e
          | .ok newTime =>
              .ok (assocSet merged "timestamp"
                (if DateTime.lt existingTime newTime then .str (isoformat existingTime)
                  else Value.ofDT newTime))
    else if truthy newValue then .ok (assocSet merged "timestamp" newValue)
    else .ok merged
  else if key = "rewardPoints" then
    match pyAdd (pyOr (pyGet existing "rewardPoints") (.int 0)) (pyOr newValue (.int 0)) with
    | .error e => .error e
    | .ok total => .ok (assocSet merged "rewardPoints" total)
  else if key = "prevOrders" then
    match asList (pyOr (pyGet existing "prevOrders") (.list [])) with
    | .error e => .error e
    | .ok exOrders =>
        match asList (pyOr newValue (.list [])) with
        | .error e => .error e
        | .ok newOrders =>
            match mergePrevOrders exOrders newOrders with
            | .error e => .error e
            | .ok mergedOrders =>
                .ok (assocSet merged "prevOrders"
                  (if mergedOrders = [] then .null else .list mergedOrders))
  else if key = "interests" then
    match asList (pyOr (pyGet existing "interests") (.list [])) with
    | .error e => .error e
    | .ok exInterests =>
        match asList (pyOr newValue (.list [])) with
        | .error e => .error e
        | .ok newInterests =>
            match pySetDedup [] (exInterests ++ newInterests) with
            | .error e => .error e
            | .ok mergedInterests =>
                .ok (assocSet merged "interests"
                  (if mergedInterests = [] then .null else .list mergedInterests))
  else if key = "category" then
    if newValue ≠ .null then
      match normalizeCategoryValue newValue with
      | .error e => .error e
      | .ok n => .ok (assocSet merged key n)
    else if pyGet merged key ≠ .null then
      match normalizeCategoryValue (pyGet merged key) with
      | .error e => .error e
      | .ok n => .ok (assocSet merged key n)
    else .ok merged
  else if pyGet merged key = .null ∧ newValue ≠ .null then
    .ok (assocSet merged key newValue)
  else if newValue ≠ .null ∧ pyGet merged key ≠ newValue then
    .ok (assocSet merged key newValue)
  else .ok merged

/-- The `for key, new_value in new.items()` loop of `_merge_customer_data`. -/
def mergeLoop (existing : Dict) : List (String × Value) → Dict → Except String Dict
  | [], merged => .ok merged
  | (key, v) :: rest, merged =>
      match processKey existing merged key v with
      | .error e => .error e
      | .ok merged2 => mergeLoop existing rest merged2

/-- `_merge_customer_data(existing, new)`: start from a copy of `existing`
and fold the loop body over the items of `new`.  An `.error` embeds an
uncaught Python exception escaping the function. -/
def merge_customer_data (existing nw : Dict) : Except String Dict :=
  mergeLoop existing nw existing

theorem processKey_shape (existing merged : Dict) (key : String) (v : Value) (m2 : Dict)
    (h : processKey existing merged key v = Except.ok m2) :
    m2 = merged ∨ ∃ w, m2 = assocSet merged key w := by
  unfold processKey at h
  split_ifs at h <;> (repeat' split at h) <;> subst_vars <;>
    first
      | exact Or.inl (Except.ok.inj h).symm
      | exact Or.inr ⟨_, (Except.ok.inj h).symm⟩
      | simp at h

theorem processKey_get_ne (existing merged : Dict) (key : String) (v : Value) (m2 : Dict)
    (h : processKey existing merged key v = Except.ok m2) (k : String) (hk : k ≠ key) :
    assocGet m2 k = assocGet merged k := by
  rcases processKey_shape existing merged key v m2 h with rfl | ⟨w, rfl⟩
  · rfl
  · exact assocGet_assocSet_ne merged key k w hk

theorem processKey_isSome (existing merged : Dict) (key : String) (v : Value) (m2 : Dict)
    (h : processKey existing merged key v = Except.ok m2) (k : String)
    (hs : (assocGet merged k).isSome) : (assocGet m2 k).isSome := by
  rcases processKey_shape existing merged key v m2 h with rfl | ⟨w, rfl⟩
  · exact hs
  · exact assocGet_assocSet_isSome merged key k w hs

theorem mergeLoop_get_notin (existing : Dict) (items : List (String × Value))
    (merged M : Dict) (k : String) (hk : k ∉ items.map Prod.fst)
    (h : mergeLoop existing items merged = Except.ok M) :
    assocGet M k = assocGet merged k := by
  induction items generalizing merged with
  | nil =>
      simp only [mergeLoop] at h
      rw [(Except.ok.inj h).symm]
  | cons hd tl ih =>
      obtain ⟨key, v⟩ := hd
      simp only [List.map_cons, List.mem_cons, not_or] at hk
      cases hp : processKey existing merged key v with
      | error e =>
          simp only [mergeLoop, hp] at h
          exact Except.noConfusion h
      | ok mid =>
          simp only [mergeLoop, hp] at h
          rw [ih mid hk.2 h]
          exact processKey_get_ne existing merged key v mid hp k hk.1

theorem mergeLoop_isSome (existing : Dict) (items : List (String × Value))
    (merged M : Dict) (k : String) (hs : (assocGet merged k).isSome)
    (h : mergeLoop existing items merged = Except.ok M) : (assocGet M k).isSome := by
  induction items generalizing merged with
  | nil =>
      simp only [mergeLoop] at h
      rw [(Except.ok.inj h).symm]; exact hs
  | cons hd tl ih =>
      obtain ⟨key, v⟩ := hd
      cases hp : processKey existing merged key v with
      | error e =>
          simp only [mergeLoop, hp] at h
          exact Except.noConfusion h
      | ok mid =>
          simp only [mergeLoop, hp] at h
          exact ih mid (processKey_isSome existing merged key v mid hp k hs) h

theorem mergeLoop_key (existing : Dict) (items : List (String × Value)) (merged M : Dict)
    (k : String) (v : Value) (hnd : (items.map Prod.fst).Nodup) (hmem : (k, v) ∈ items)
    (h : mergeLoop existing items merged = Except.ok M) :
    ∃ m m2, assocGet m k = assocGet merged k ∧ processKey existing m k v = Except.ok m2 ∧
      assocGet M k = assocGet m2 k := by
  induction items generalizing merged with
  | nil => cases hmem
  | cons hd tl ih =>
      obtain ⟨key, w⟩ := hd
      simp only [List.map_cons, List.nodup_cons] at hnd
      cases hp : processKey existing merged key w with
      | error e =>
          simp only [mergeLoop, hp] at h
          exact Except.noConfusion h
      | ok mid =>
          simp only [mergeLoop, hp] at h
          rcases List.mem_cons.mp hmem with heq | hmem2
          · obtain ⟨rfl, rfl⟩ := Prod.mk.injEq .. ▸ heq
            refine ⟨merged, mid, rfl, hp, ?_⟩
            exact mergeLoop_get_notin existing tl mid M k hnd.1 h
          · have hkey : key ≠ k := by
              intro hcon
              exact hnd.1 (hcon ▸ (List.mem_map_of_mem Prod.fst hmem2))
            obtain ⟨m, m2, hm, hpk, hM⟩ := ih mid hnd.2 hmem2 h
            exact ⟨m, m2, by
              rw [hm]
              exact processKey_get_ne existing merged key w mid hp k (Ne.symm hkey), hpk, hM⟩

/-- `BUCKET_NAME` in `tools.py`. -/
def BUCKET_NAME : String := "aiatl2025"

/-- Oracle for the storage side effects of one request: whether the
module-level bucket handle was initialized, which of the retried upload
attempts succeed, whether listing/downloading blobs succeeds, whether a
local fallback write succeeds, and whether a blob delete succeeds. -/
structure Env where
  bucketInit : Bool
  uploadOk : Nat → Bool
  listOk : Bool
  localWriteOk : Bool
  deleteOk : Bool

/-- Storage state: remote blobs (name ↦ decoded JSON payload) and local
fallback files (path ↦ decoded JSON payload).  JSON encoding/decoding of
the payload dictionaries is modelled as the identity. -/
structure Store where
  remote : List (String × Dict)
  fallbackFiles : List (String × Dict)
deriving DecidableEq

/-- The retry loop of `_upload_json_to_gcs`: the first successful attempt
among `max_retries = 3`, if any. -/
def firstUploadSuccess (env : Env) : Nat → Nat → Option Nat
  | 0, _ => none
  | n + 1, i => if env.uploadOk i then some i else firstUploadSuccess env n (i + 1)

/-- All three upload attempts fail. -/
def remoteAllFail (env : Env) : Bool :=
  !env.uploadOk 0 && !env.uploadOk 1 && !env.uploadOk 2

/-- The local fallback path `storage_fallback/<folder>/<file_id>.json`. -/
def fallbackPath (folder fileId : String) : String :=
  "storage_fallback/" ++ folder ++ "/" ++ fileId ++ ".json"

/-- The remote blob key `<folder>/<file_id>.json`. -/
def blobKey (folder fileId : String) : String := folder ++ "/" ++ fileId ++ ".json"

/-- `_upload_json_to_gcs(data_dict, folder, file_id)`: with no bucket
handle, write the local fallback file immediately; otherwise retry the
remote upload up to three times (the backoff sleeps do not affect state)
and fall back to the local file when all attempts fail.  `none` — the
source's `None` return — occurs only when the needed local write also
fails. -/
def upload_json_to_gcs (env : Env) (st : Store) (dataDict : Dict) (folder fileId : String) :
    Option String × Store :=
  if !env.bucketInit then
    if env.localWriteOk then
      (some ("file://" ++ fallbackPath folder fileId),
        Store.mk st.remote (assocSet st.fallbackFiles (fallbackPath folder fileId) dataDict))
    else (none, st)
  else
    match firstUploadSuccess env 3 0 with
    | some _ =>
        (some ("gs://" ++ BUCKET_NAME ++ "/" ++ blobKey folder fileId),
          Store.mk (assocSet st.remote (blobKey folder fileId) dataDict) st.fallbackFiles)
    | none =>
        if env.localWriteOk then
          (some ("file://" ++ fallbackPath folder fileId),
            Store.mk st.remote (assocSet st.fallbackFiles (fallbackPath folder fileId) dataDict))
        else (none, st)

/-- Truthiness of an optional-string argument. -/
def truthyOpt : Option String → Bool
  | none => false
  | some s => s ≠ ""

/-- `.lower().strip()` of a stored value; non-strings raise
`AttributeError`. -/
def lowerStripValue : Value → Except String String
  | .str s => .ok (lowerStrip s)
  | _ => .error "AttributeError"

/-- The body of `_find_existing_customer`'s per-blob loop: the email check
(primary) followed, in the same iteration, by the name check, which is a
hit only when the incoming email is falsy or the stored record's email is
falsy.  An error is caught by the per-blob handler and the blob skipped. -/
def blobMatches (name email : Option String) (cd : Dict) : Except String Bool :=
  match
    ((if truthyOpt email ∧ truthy (pyGet cd "email") then
      match lowerStripValue ((assocGet cd "email").getD (.str "")) with
      | .error e => .error e
      | .ok stored => .ok (decide (lowerStrip (email.getD "") = stored))
    else .ok false) : Except String Bool) with
  | .error e => .error e
  | .ok true => .ok true
  | .ok false =>
      if truthyOpt name ∧ truthy (pyGet cd "name") then
        match lowerStripValue ((assocGet cd "name").getD (.str "")) with
        | .error e => .error e
        | .ok stored =>
            .ok (decide (lowerStrip (name.getD "") = stored) &&
              (!truthyOpt email || !truthy (pyGet cd "email")))
      else .ok false

/-- The blob scan of `_find_existing_customer`, in listing order. -/
def scanCustomerBlobs (name email : Option String) :
    List (String × Dict) → Option (Dict × String)
  | [] => none
  | (bn, cd) :: rest =>
      match blobMatches name email cd with
      | .error _ => scanCustomerBlobs name email rest
      | .ok true => some (cd, bn)
      | .ok false => scanCustomerBlobs name email rest

/-- Whether the characters of `p` start the characters of `s`. -/
def charsStartWith : List Char → List Char → Bool
  | _, [] => true
  | [], _ :: _ => false
  | c :: cs, d :: ds => c = d && charsStartWith cs ds

/-- `s.startswith(p)` on the embedded strings. -/
def strStartsWith (s p : String) : Bool := charsStartWith s.data p.data

/-- The blobs under a collection prefix, in stored order. -/
def blobsUnder (st : Store) (p : String) : List (String × Dict) :=
  st.remote.filter (fun kv => strStartsWith kv.1 p)

/-- `_find_existing_customer(name, email)`: `None` when the bucket handle is
missing or listing raises (outer `except`); otherwise the first matching
blob under `customer_info/`. -/
def find_existing_customer (env : Env) (st : Store) (name email : Option String) :
    Option (Dict × String) :=
  if !env.bucketInit then none
  else if !env.listOk then none
  else scanCustomerBlobs name email (blobsUnder st "customer_info/")

/-- The three decoded collections returned by `get_storage`. -/
structure StorageData where
  customer_info : List Dict
  financial_data : List Dict
  uploaded_files : List Dict
deriving DecidableEq

/-- `get_storage()`: an error dict when the bucket handle is missing or
listing raises; otherwise the decoded blobs of the three collection
prefixes.  It reads only the remote store — never the local fallback
directory. -/
def get_storage (env : Env) (st : Store) : Except String StorageData :=
  if !env.bucketInit then .error "GCS bucket not initialized."
  else if !env.listOk then .error "Error loading data from GCS"
  else
    .ok (StorageData.mk
      ((blobsUnder st "customer_info/").map Prod.snd)
      ((blobsUnder st "financial_data/").map Prod.snd)
      ((blobsUnder st "uploaded_files/").map Prod.snd))

/-- The thirteen optional arguments of `enter_customer_info`. -/
structure CustomerParams where
  name : Option String
  email : Option String
  phone : Option String
  rewardPoints : Option Int
  prevOrders : Option (List Dict)
  birthday : Option String
  interests : Option (List String)
  address : Option String
  company : Option String
  category : Option String
  notes : Option String
  paymentMethod : Option String
  paymentLast4 : Option String

/-- The `customer_data` dict built by `enter_customer_info`, with the
category already normalized and every missing argument stored as `None`. -/
def customerDataOf (p : CustomerParams) : Dict :=
  [("name", optStr p.name), ("email", optStr p.email), ("phone", optStr p.phone),
    ("rewardPoints", match p.rewardPoints with | none => .null | some n => .int n),
    ("prevOrders", match p.prevOrders with | none => .null | some l => .list (l.map Value.dict)),
    ("birthday", optStr p.birthday),
    ("interests", match p.interests with | none => .null | some l => .list (l.map Value.str)),
    ("address", optStr p.address), ("company", optStr p.company),
    ("category", optStr (normalize_category p.category)),
    ("notes", optStr p.notes), ("paymentMethod", optStr p.paymentMethod),
    ("paymentLast4", optStr p.paymentLast4)]

/-- `any(value is not None and value != "" for value in
customer_data.values())`. -/
def hasData (d : Dict) : Bool := d.any (fun kv => kv.2 ≠ .null && kv.2 ≠ .str "")

/-- The fields of the result dict of the write tools that carry data (the
human-readable `message`/`error_message` strings are not modelled). -/
structure ToolResult where
  status : String
  data : Option Dict
  gcs_path : Option String
  entered_fields : List (String × Value)
  missing_fields : List String
  is_update : Option Bool
deriving DecidableEq

/-- `entered_fields` of `enter_customer_info` (truthy-ish values, timestamp
excluded). -/
def enteredFieldsOf (d : Dict) : List (String × Value) :=
  d.filter (fun kv => kv.2 ≠ .null && kv.2 ≠ .str "" && kv.1 ≠ "timestamp")

/-- `missing_fields` of `enter_customer_info`; the source's condition is
`v is None or (v == "" and k != "timestamp")` (Python operator
precedence). -/
def missingFieldsOf (d : Dict) : List String :=
  (d.filter (fun kv => kv.2 = .null || (kv.2 = .str "" && kv.1 ≠ "timestamp"))).map Prod.fst

/-- The tail of `enter_customer_info` after duplicate handling: store the
record and build the result dict (`status = "error"` when
`_upload_json_to_gcs` returned `None`). -/
def finishCustomerWrite (env : Env) (st : Store) (customer_data : Dict) (entryId : String)
    (isUpdate : Bool) : ToolResult × Store :=
  match upload_json_to_gcs env st customer_data "customer_info" entryId with
  | (none, st2) => (ToolResult.mk "error" (some customer_data) none [] [] none, st2)
  | (some path, st2) =>
      (ToolResult.mk "success" (some customer_data) (some path)
        (enteredFieldsOf customer_data) (missingFieldsOf customer_data) (some isUpdate), st2)

/-- `enter_customer_info(...)`: build `customer_data`, reject when no field
is substantive, detect and merge a duplicate (deleting its old blob; a
delete failure is logged and ignored), add the timestamp when absent, and
store.  `now` stands for `datetime.now().isoformat()` and `entryId` for
`str(uuid.uuid4())`; an `.error` embeds an uncaught Python exception. -/
def enter_customer_info (env : Env) (st : Store) (p : CustomerParams)
    (now entryId : String) : Except String (ToolResult × Store) :=
  let customer_data := customerDataOf p
  if !hasData customer_data then
    .ok (ToolResult.mk "error" none none [] [] none, st)
  else
    match find_existing_customer env st p.name p.email with
    | some (existingData, blobName) =>
        match merge_customer_data existingData customer_data with
        | .error e => .error e
        | .ok merged =>
            let st2 :=
              if env.deleteOk then
                Store.mk (st.remote.filter (fun kv => kv.1 ≠ blobName)) st.fallbackFiles
              else st
            let withTs :=
              if containsKey merged "timestamp" then merged
              else assocSet merged "timestamp" (.str now)
            .ok (finishCustomerWrite env st2 withTs entryId true)
    | none =>
        let withTs :=
          if containsKey customer_data "timestamp" then customer_data
          else assocSet customer_data "timestamp" (.str now)
        .ok (finishCustomerWrite env st withTs entryId false)

/-- The seven optional arguments of `enter_financial_data`. -/
structure FinancialParams where
  name : Option String
  category : Option String
  transactions : Option (List Dict)
  expenses : Option (List Dict)
  bankStatements : Option (List Dict)
  financeReports : Option (List Dict)
  taxDocuments : Option (List Dict)

/-- Embed an optional list of sub-record dicts. -/
def optListDict : Option (List Dict) → Value
  | none => .null
  | some l => .list (l.map Value.dict)

/-- The `financial_data` dict built by `enter_financial_data`. -/
def financialDataOf (p : FinancialParams) : Dict :=
  [("name", optStr p.name), ("category", optStr p.category),
    ("transactions", optListDict p.transactions), ("expenses", optListDict p.expenses),
    ("bankStatements", optListDict p.bankStatements),
    ("financeReports", optListDict p.financeReports),
    ("taxDocuments", optListDict p.taxDocuments)]

/-- `enter_financial_data`'s `has_data`: some category list is a non-empty
list. -/
def financialHasData (p : FinancialParams) : Bool :=
  [p.transactions, p.expenses, p.bankStatements, p.financeReports, p.taxDocuments].any
    (fun o => match o with | some l => !l.isEmpty | none => false)

/-- `enter_financial_data(...)`: reject when every category list is empty,
else append the timestamp and store; `status = "error"` when the upload
returned `None`. -/
def enter_financial_data (env : Env) (st : Store) (p : FinancialParams)
    (now entryId : String) : ToolResult × Store :=
  let financial_data := financialDataOf p
  if !financialHasData p then (ToolResult.mk "error" none none [] [] none, st)
  else
    let entry := financial_data ++ [("timestamp", .str now)]
    match upload_json_to_gcs env st entry "financial_data" entryId with
    | (none, st2) => (ToolResult.mk "error" (some financial_data) none [] [] none, st2)
    | (some path, st2) =>
        (ToolResult.mk "success" (some financial_data) (some path)
          (financial_data.filter (fun kv => kv.2 ≠ .null && kv.2 ≠ .str ""))
          ((financial_data.filter (fun kv => kv.2 = .null || kv.2 = .str "")).map Prod.fst)
          none, st2)

/-- The data-bearing fields of `extract_data_from_file`'s result dict. -/
structure ExtractFileResult where
  status : String
  suggested_agent : String
  data_type : Value
  confidence : Value
deriving DecidableEq

/-- `extract_data_from_file(file_content, file_type)` after the Gemini (or
keyword-fallback) extraction, whose outcome — an external LLM/network
effect — is passed in as `extracted`.  The audit record for the uploaded
file is stored, but the result of `_upload_json_to_gcs` is discarded and
the returned status is unconditionally `"success"`. -/
def extract_data_from_file (env : Env) (st : Store) (fileContent : String)
    (fileType : Option String) (extracted : Dict) (now entryId : String) :
    ExtractFileResult × Store :=
  let contentPreview := if fileContent.length > 500 then fileContent.take 500 else fileContent
  let fileTypeStr :=
    match fileType with
    | some s => if s = "" then "unknown" else s
    | none => "unknown"
  let file_entry : Dict :=
    [("content_preview", .str contentPreview), ("file_type", .str fileTypeStr),
      ("timestamp", .str now),
      ("extraction_confidence", (assocGet extracted "confidence").getD (.int 0)),
      ("data_type", (assocGet extracted "data_type").getD (.str "unknown"))]
  let st2 := (upload_json_to_gcs env st file_entry "uploaded_files" entryId).2
  let dataType := (assocGet extracted "data_type").getD (.str "unknown")
  let suggested :=
    if dataType = .str "customer_info" then "customer_info"
    else if dataType = .str "financial_data" then "finances"
    else if dataType = .str "mixed" then "both"
    else "unknown"
  (ExtractFileResult.mk "success" suggested dataType
    ((assocGet extracted "confidence").getD (.int 0)), st2)

/-- A raised `HTTPException`. -/
structure HTTPError where
  code : Nat
  detail : String
deriving DecidableEq

/-- The `stats` dict of `/api/customers/stats`. -/
structure CustomerStats where
  total : Nat
  prospective : Nat
  current : Nat
  inactive : Nat
  uncategorized : Nat
deriving DecidableEq

/-- The category-count loop of `get_customer_stats`; a truthy non-string
category raises (`AttributeError` at `.lower()`), which the endpoint's
`except` turns into a 500. -/
def statsLoop : List Dict → CustomerStats → Except String CustomerStats
  | [], acc => .ok acc
  | c :: rest, acc =>
      let category := pyGet c "category"
      if !truthy category then
        statsLoop rest (CustomerStats.mk acc.total acc.prospective acc.current acc.inactive
          (acc.uncategorized + 1))
      else
        match category with
        | .str s =>
            if pyLowerStr s = "prospective" then
              statsLoop rest (CustomerStats.mk acc.total (acc.prospective + 1) acc.current
                acc.inactive acc.uncategorized)
            else if pyLowerStr s = "current" then
              statsLoop rest (CustomerStats.mk acc.total acc.prospective (acc.current + 1)
                acc.inactive acc.uncategorized)
            else if pyLowerStr s = "inactive" then
              statsLoop rest (CustomerStats.mk acc.total acc.prospective acc.current
                (acc.inactive + 1) acc.uncategorized)
            else
              statsLoop rest (CustomerStats.mk acc.total acc.prospective acc.current
                acc.inactive (acc.uncategorized + 1))
        | _ => .error "AttributeError"

/-- `/api/customers/stats`: on a storage error the endpoint logs and returns
the all-zero stats (status 200), never raising. -/
def get_customer_stats (env : Env) (st : Store) : Except HTTPError CustomerStats :=
  match get_storage env st with
  | .error _ => .ok (CustomerStats.mk 0 0 0 0 0)
  | .ok storage =>
      match statsLoop storage.customer_info
          (CustomerStats.mk storage.customer_info.length 0 0 0 0) with
      | .error e => .error (HTTPError.mk 500 e)
      | .ok stats => .ok stats

/-- The list comprehension filtering customers by category
(case-insensitively) in `/api/customers`. -/
def customerCategoryFilter (category : String) : List Dict → Except String (List Dict)
  | [] => .ok []
  | c :: rest =>
      let cv := pyGet c "category"
      if !truthy cv then customerCategoryFilter category rest
      else
        match cv with
        | .str s =>
            match customerCategoryFilter category rest with
            | .error e => .error e
            | .ok r => .ok (if pyLowerStr s = pyLowerStr category then c :: r else r)
        | _ => .error "AttributeError"

/-- `/api/customers`: on a storage error the endpoint logs and returns an
empty list with count 0 (status 200), never raising. -/
def get_customers (env : Env) (st : Store) (category : Option String) :
    Except HTTPError (Nat × List Dict) :=
  match get_storage env st with
  | .error _ => .ok (0, [])
  | .ok storage =>
      if truthyOpt category then
        match customerCategoryFilter (category.getD "") storage.customer_info with
        | .error e => .error (HTTPError.mk 500 e)
        | .ok r => .ok (r.length, r)
      else .ok (storage.customer_info.length, storage.customer_info)

/-- The first-hit email lookup loop of `/api/customers/{customer_id}`. -/
def findByEmail (customerId : String) : List Dict → Except String (Option Dict)
  | [] => .ok none
  | c :: rest =>
      let ev := pyGet c "email"
      if !truthy ev then findByEmail customerId rest
      else
        match ev with
        | .str s =>
            if pyLowerStr s = pyLowerStr customerId then .ok (some c)
            else findByEmail customerId rest
        | _ => .error "AttributeError"

/-- `/api/customers/{customer_id}`: on a storage error this endpoint raises
`HTTPException(404, "Customer not found (storage unavailable: ...)")`
instead of degrading to an empty result. -/
def get_customer (env : Env) (st : Store) (customerId : String) : Except HTTPError Dict :=
  match get_storage env st with
  | .error e =>
      .error (HTTPError.mk 404 ("Customer not found (storage unavailable: " ++ e ++ ")"))
  | .ok storage =>
      match findByEmail customerId storage.customer_info with
      | .error e => .error (HTTPError.mk 500 e)
      | .ok none =>
          .error (HTTPError.mk 404 ("Customer with email " ++ customerId ++ " not found"))
      | .ok (some c) => .ok c

/-! ### General helper lemmas and shared concrete fixtures -/

theorem assocGet_mem {α : Type} (d : List (String × α)) (k : String) (v : α)
    (h : assocGet d k = some v) : (k, v) ∈ d := by
  induction d with
  | nil => simp [assocGet] at h
  | cons hd tl ih =>
      obtain ⟨k0, v0⟩ := hd
      by_cases hk : k0 = k
      · subst hk
        simp only [assocGet, ite_true, Option.some.injEq, eq_self_iff_true, if_true] at h
        subst h
        exact List.mem_cons_self _ _
      · simp only [assocGet, if_neg hk] at h
        exact List.mem_cons_of_mem _ (ih h)

theorem charsStartWith_append (l m : List Char) : charsStartWith (l ++ m) l = true := by
  induction l with
  | nil => cases m <;> rfl
  | cons c cs ih => simp [charsStartWith, ih]

theorem strStartsWith_append (p s : String) : strStartsWith (p ++ s) p = true := by
  unfold strStartsWith
  rw [String.data_append]
  exact charsStartWith_append p.data s.data

theorem firstUploadSuccess_none_iff (env : Env) :
    firstUploadSuccess env 3 0 = none ↔ remoteAllFail env = true := by
  unfold remoteAllFail
  cases h0 : env.uploadOk 0 <;> cases h1 : env.uploadOk 1 <;> cases h2 : env.uploadOk 2 <;>
    simp [firstUploadSuccess, h0, h1, h2]

/-- An environment whose bucket handle exists, whose remote writes and
listings all fail, and whose local disk works: a remote outage. -/
def envRemoteDown : Env := Env.mk true (fun _ => false) false true true

/-- An environment where nothing works, remote or local. -/
def envAllDown : Env := Env.mk false (fun _ => false) false false false

/-- A fully healthy environment. -/
def envHealthy : Env := Env.mk true (fun _ => true) true true true

/-- An empty store. -/
def emptyStore : Store := Store.mk [] []

/-- The argument list of `write_customer({name: "Bob"})`. -/
def bobParams : CustomerParams :=
  CustomerParams.mk (some "Bob") none none none none none none none none none none none none

/-! ### C8 — category normalization -/

theorem category_map_cases (s n : String) (h : category_map s = some n) :
    n = "Prospective" ∨ n = "Current" ∨ n = "Inactive" := by
  unfold category_map at h
  split_ifs at h <;> simp_all

theorem normalize_category_cases (c : Option String) :
    normalize_category c = none ∨ normalize_category c = some "Prospective" ∨
      normalize_category c = some "Current" ∨ normalize_category c = some "Inactive" := by
  match c with
  | none => exact Or.inl rfl
  | some s =>
      by_cases he : s = ""
      · exact Or.inl (by simp [normalize_category, he])
      · cases hcm : category_map (stripLower s) with
        | some n =>
            rcases category_map_cases _ _ hcm with h | h | h <;>
              simp [normalize_category, he, hcm, h]
        | none =>
            simp only [normalize_category, he, hcm, ite_false, if_neg]
            split_ifs <;> simp

theorem normalize_category_key_invariant (s t : String) (hkey : stripLower s = stripLower t) :
    normalize_category (some s) = normalize_category (some t) := by
  by_cases hs : s = "" <;> by_cases ht : t = ""
  · rw [hs, ht]
  · have ht0 : stripLower t = "" := by rw [← hkey, hs]; decide
    subst hs
    simp only [normalize_category, ite_true, ht, if_neg, ite_false, ht0]
    decide
  · have hs0 : stripLower s = "" := by rw [hkey, ht]; decide
    subst ht
    simp only [normalize_category, ite_true, hs, if_neg, ite_false, hs0]
    decide
  · simp only [normalize_category, hs, ht, ite_false, if_neg]
    rw [hkey]

theorem normalize_category_active (s : String) (h : stripLower s = "active") :
    normalize_category (some s) = some "Current" := by
  have hs : s ≠ "" := by
    intro hcon
    rw [hcon] at h
    exact absurd h (by decide)
  simp [normalize_category, hs, h, category_map]

/-- C8: `_normalize_category` is total onto {Prospective, Current, Inactive,
None}: it depends only on the stripped, lowercased input (case-insensitive,
whitespace-trimmed matching), maps the synonym "active" to "Current", and
is a fixed point on its own outputs. -/
theorem normalize_category_total_fixed_point :
    (∀ c : Option String,
      normalize_category c = none ∨ normalize_category c = some "Prospective" ∨
        normalize_category c = some "Current" ∨ normalize_category c = some "Inactive") ∧
    (∀ s t : String, stripLower s = stripLower t →
      normalize_category (some s) = normalize_category (some t)) ∧
    (∀ s : String, stripLower s = "active" → normalize_category (some s) = some "Current") ∧
    (∀ c : Option String, normalize_category (normalize_category c) = normalize_category c) := by
  refine ⟨normalize_category_cases, normalize_category_key_invariant, normalize_category_active,
    fun c => ?_⟩
  rcases normalize_category_cases c with h | h | h | h <;> rw [h] <;> decide

/-- Witness for C8 at concrete inputs. -/
theorem normalize_category_total_fixed_point_witness :
    normalize_category (some " ACTIVE ") = some "Current" ∧
    normalize_category (some "inactive\t") = normalize_category (some "  Inactive") ∧
    normalize_category (normalize_category (some "whatever")) =
      normalize_category (some "whatever") :=
  ⟨normalize_category_total_fixed_point.2.2.1 " ACTIVE " (by decide),
    normalize_category_total_fixed_point.2.1 "inactive\t" "  Inactive" (by decide),
    normalize_category_total_fixed_point.2.2.2 (some "whatever")⟩

/-! ### C3 — `_upload_json_to_gcs` failure modes -/

/-- C3: the upload returns `None` exactly when the remote write is
impossible (no bucket handle, or all three retried attempts fail) and the
local fallback write also fails; whenever the remote side fails but the
local write succeeds it returns a `file://` location, and every returned
location is distinguishable by its URI scheme prefix (`file://` for
fallback, `gs://` for remote, mutually exclusive). -/
theorem upload_failure_only_when_both_fail (env : Env) (st : Store) (d : Dict)
    (folder fileId : String) :
    ((upload_json_to_gcs env st d folder fileId).1 = none ↔
      (env.bucketInit = false ∨ remoteAllFail env = true) ∧ env.localWriteOk = false) ∧
    ((env.bucketInit = false ∨ remoteAllFail env = true) → env.localWriteOk = true →
      (upload_json_to_gcs env st d folder fileId).1 =
        some ("file://" ++ fallbackPath folder fileId) ∧
      strStartsWith ("file://" ++ fallbackPath folder fileId) "file://" = true ∧
      strStartsWith ("file://" ++ fallbackPath folder fileId) "gs://" = false) ∧
    (env.bucketInit = true → remoteAllFail env = false →
      (upload_json_to_gcs env st d folder fileId).1 =
        some ("gs://" ++ BUCKET_NAME ++ "/" ++ blobKey folder fileId) ∧
      strStartsWith ("gs://" ++ BUCKET_NAME ++ "/" ++ blobKey folder fileId) "gs://" = true ∧
      strStartsWith ("gs://" ++ BUCKET_NAME ++ "/" ++ blobKey folder fileId) "file://" =
        false) := by
  have hfile : ∀ x : String, strStartsWith ("file://" ++ x) "file://" = true := fun x =>
    strStartsWith_append "file://" x
  have hgs : ∀ x : String, strStartsWith ("gs://" ++ x) "gs://" = true := fun x =>
    strStartsWith_append "gs://" x
  have hfg : ∀ x : String, strStartsWith ("file://" ++ x) "gs://" = false := by
    intro x
    unfold strStartsWith
    rw [String.data_append]
    rfl
  have hgf : ∀ x : String, strStartsWith ("gs://" ++ x) "file://" = false := by
    intro x
    unfold strStartsWith
    rw [String.data_append]
    rfl
  unfold upload_json_to_gcs
  by_cases hb : env.bucketInit
  · cases hup : firstUploadSuccess env 3 0 with
    | some i =>
        have hra : remoteAllFail env = false := by
          rcases h : remoteAllFail env with _ | _
          · rfl
          · rw [(firstUploadSuccess_none_iff env).mpr h] at hup
            cases hup
        have e1 : ("gs://" ++ BUCKET_NAME ++ "/" ++ blobKey folder fileId) =
            "gs://" ++ (BUCKET_NAME ++ ("/" ++ blobKey folder fileId)) := by
          rw [String.append_assoc, String.append_assoc]
        refine ⟨by simp [hb, hup, hra], fun hor _ => ?_, fun _ _ => ?_⟩
        · rcases hor with h | h
          · rw [hb] at h; cases h
          · rw [hra] at h; cases h
        · refine ⟨by simp [hb, hup], ?_, ?_⟩
          · rw [e1]; exact hgs _
          · rw [e1]; exact hgf _
    | none =>
        have hra : remoteAllFail env = true := (firstUploadSuccess_none_iff env).mp hup
        by_cases hl : env.localWriteOk
        · exact ⟨by simp [hb, hup, hl], fun _ _ => ⟨by simp [hb, hup, hl], hfile _, hfg _⟩,
            fun _ hcon => by rw [hra] at hcon; cases hcon⟩
        · refine ⟨by simp [hb, hup, hl, hra], fun _ hcon => ?_, fun _ hcon => ?_⟩
          · rw [hcon] at hl; exact absurd rfl hl
          · rw [hra] at hcon; cases hcon
  · by_cases hl : env.localWriteOk
    · exact ⟨by simp [hb, hl], fun _ _ => ⟨by simp [hb, hl], hfile _, hfg _⟩,
        fun hcon _ => by rw [hcon] at hb; exact absurd rfl hb⟩
    · refine ⟨by simp [hb, hl], fun _ hcon => ?_, fun hcon _ => ?_⟩
      · rw [hcon] at hl; exact absurd rfl hl
      · rw [hcon] at hb; exact absurd rfl hb

/-- Witness for C3: a remote outage with a healthy disk yields the
`file://` fallback location, and a healthy remote yields `gs://`. -/
theorem upload_failure_only_when_both_fail_witness :
    ((upload_json_to_gcs envRemoteDown emptyStore [] "customer_info" "id1").1 =
      some ("file://" ++ fallbackPath "customer_info" "id1") ∧
      strStartsWith ("file://" ++ fallbackPath "customer_info" "id1") "file://" = true ∧
      strStartsWith ("file://" ++ fallbackPath "customer_info" "id1") "gs://" = false) ∧
    ((upload_json_to_gcs envHealthy emptyStore [] "customer_info" "id1").1 =
      some ("gs://" ++ BUCKET_NAME ++ "/" ++ blobKey "customer_info" "id1") ∧
      strStartsWith ("gs://" ++ BUCKET_NAME ++ "/" ++ blobKey "customer_info" "id1")
        "gs://" = true ∧
      strStartsWith ("gs://" ++ BUCKET_NAME ++ "/" ++ blobKey "customer_info" "id1")
        "file://" = false) :=
  ⟨(upload_failure_only_when_both_fail envRemoteDown emptyStore [] "customer_info" "id1").2.1
      (Or.inr (by decide)) (by decide),
    (upload_failure_only_when_both_fail envHealthy emptyStore [] "customer_info" "id1").2.2
      (by decide) (by decide)⟩

/-! ### C2 — aggregation endpoints under a storage error -/

/-- C2 counterexample: with the remote store unavailable, the
lookup-by-email endpoint `get_customer` does not return an empty result —
it raises `HTTPException(404, ...)`, contradicting the claim that every
aggregation function degrades to an empty result and never raises. -/
theorem get_customer_storage_error_counterexample :
    get_storage envRemoteDown emptyStore = .error "Error loading data from GCS" ∧
    get_customer envRemoteDown emptyStore "a@x.com" =
      .error (HTTPError.mk 404
        "Customer not found (storage unavailable: Error loading data from GCS)") := by
  constructor <;> rfl

/-- C2 amended: when `get_storage` reports a store error, the count-by-
category endpoint returns the all-zero stats and the filter-by-category
endpoint returns an empty list, neither raising; the lookup-by-email
endpoint instead raises `HTTPException(404)`. -/
theorem aggregation_degrade_amended (env : Env) (st : Store) (cat : Option String)
    (cid : String) (e : String) (h : get_storage env st = .error e) :
    get_customer_stats env st = .ok (CustomerStats.mk 0 0 0 0 0) ∧
    get_customers env st cat = .ok (0, []) ∧
    get_customer env st cid =
      .error (HTTPError.mk 404 ("Customer not found (storage unavailable: " ++ e ++ ")")) := by
  unfold get_customer_stats get_customers get_customer
  rw [h]
  exact ⟨rfl, rfl, rfl⟩

/-- Witness for C2's amended statement at a concrete dead environment. -/
theorem aggregation_degrade_amended_witness :
    get_customer_stats envAllDown emptyStore = .ok (CustomerStats.mk 0 0 0 0 0) ∧
    get_customers envAllDown emptyStore (some "Current") = .ok (0, []) ∧
    get_customer envAllDown emptyStore "a@x.com" =
      .error (HTTPError.mk 404
        ("Customer not found (storage unavailable: " ++ "GCS bucket not initialized." ++
          ")")) :=
  aggregation_degrade_amended envAllDown emptyStore (some "Current") "a@x.com"
    "GCS bucket not initialized." (by decide)

/-! ### C1 — bare-name matching in `_find_existing_customer` -/

/-- C1 counterexample: the store holds a single record that carries a
non-null email, the incoming record has a name but no email, and
`_find_existing_customer` nevertheless returns the bare-name match — the
claim says an email-bearing record is never returned on a bare-name
match. -/
theorem find_existing_bare_name_counterexample :
    pyGet [("name", Value.str "bob"), ("email", Value.str "b@x.com")] "email" =
      Value.str "b@x.com" ∧
    find_existing_customer envHealthy
      (Store.mk [("customer_info/1.json",
        [("name", Value.str "bob"), ("email", Value.str "b@x.com")])] [])
      (some "Bob") none =
      some ([("name", Value.str "bob"), ("email", Value.str "b@x.com")],
        "customer_info/1.json") := by
  constructor <;> rfl

/-- C1 amended: when the incoming record carries no (truthy) email, a
case-insensitive trimmed name match is returned regardless of whether the
stored record carries an email; the stored-record-carries-no-email
restriction in the source applies only when an incoming email is present
(`if not email or not customer_data.get("email")`). -/
theorem find_existing_bare_name_any_email (env : Env) (st : Store) (E : Dict) (bn : String)
    (nm en : String) (email : Option String)
    (hb : env.bucketInit = true) (hl : env.listOk = true)
    (hst : blobsUnder st "customer_info/" = [(bn, E)])
    (hemail : truthyOpt email = false) (hnm : nm ≠ "")
    (hen : assocGet E "name" = some (Value.str en)) (hent : en ≠ "")
    (hmatch : lowerStrip nm = lowerStrip en) :
    find_existing_customer env st (some nm) email = some (E, bn) := by
  have ht2 : truthyOpt (some nm) = true := by simp [truthyOpt, hnm]
  have hpg : truthy (pyGet E "name") = true := by
    simp [pyGet, hen, truthy, hent]
  have hgd : (assocGet E "name").getD (Value.str "") = Value.str en := by
    rw [hen]; rfl
  have hbm : blobMatches (some nm) email E = .ok true := by
    simp [blobMatches, hemail, ht2, hpg, hgd, lowerStripValue, hmatch]
  simp [find_existing_customer, hb, hl, hst, scanCustomerBlobs, hbm]

/-- Witness for C1's amended statement: the counterexample record again,
reached through the general theorem. -/
theorem find_existing_bare_name_any_email_witness :
    find_existing_customer envHealthy
      (Store.mk [("customer_info/1.json",
        [("name", Value.str "bob"), ("email", Value.str "b@x.com")])] [])
      (some " BOB ") none =
      some ([("name", Value.str "bob"), ("email", Value.str "b@x.com")],
        "customer_info/1.json") :=
  find_existing_bare_name_any_email envHealthy
    (Store.mk [("customer_info/1.json",
      [("name", Value.str "bob"), ("email", Value.str "b@x.com")])] [])
    [("name", Value.str "bob"), ("email", Value.str "b@x.com")] "customer_info/1.json"
    " BOB " "bob" none (by decide) (by decide) (by decide) (by decide) (by decide)
    (by decide) (by decide) (by decide)

/-! ### C10 — merge frame preservation -/

/-- C10: `_merge_customer_data` is frame-preserving: every key of the
existing record that is not a key of the incoming record keeps exactly its
existing binding in the merged record, and no key of the existing record
is ever removed. -/
theorem merge_frame_preservation (E I M : Dict) (h : merge_customer_data E I = Except.ok M) :
    (∀ k, containsKey E k = true → k ∉ dictKeys I → assocGet M k = assocGet E k) ∧
    (∀ k, containsKey E k = true → containsKey M k = true) := by
  unfold merge_customer_data at h
  constructor
  · intro k _ hk
    exact mergeLoop_get_notin E I E M k hk h
  · intro k hk
    unfold containsKey at hk ⊢
    exact mergeLoop_isSome E I E M k hk h

/-- Witness for C10 at a concrete merge: the `phone` binding of the
existing record survives a merge whose incoming record does not mention
`phone`. -/
theorem merge_frame_preservation_witness :
    assocGet [("name", Value.str "Bob"), ("phone", Value.str "555")] "phone" =
      assocGet [("name", Value.str "bob"), ("phone", Value.str "555")] "phone" ∧
    containsKey [("name", Value.str "Bob"), ("phone", Value.str "555")] "phone" = true :=
  ⟨(merge_frame_preservation [("name", Value.str "bob"), ("phone", Value.str "555")]
      [("name", Value.str "Bob")]
      [("name", Value.str "Bob"), ("phone", Value.str "555")] (by decide)).1 "phone"
      (by decide) (by decide),
    (merge_frame_preservation [("name", Value.str "bob"), ("phone", Value.str "555")]
      [("name", Value.str "Bob")]
      [("name", Value.str "Bob"), ("phone", Value.str "555")] (by decide)).2 "phone"
      (by decide)⟩

/-! ### C6 — rewardPoints merge sum and commutativity -/

/-- The numeric reading of a rewardPoints value, `null` as 0. -/
def pointsOrZero : Value → Int
  | .int n => n
  | _ => 0

theorem pyOr_int_zero (v : Value) (h : v = Value.null ∨ ∃ n : Int, v = Value.int n) :
    pyOr v (Value.int 0) = Value.int (pointsOrZero v) := by
  rcases h with rfl | ⟨n, rfl⟩
  · rfl
  · by_cases hn : n = 0
    · subst hn; rfl
    · simp [pyOr, truthy, hn, pointsOrZero]

theorem processKey_rewardPoints (existing m : Dict) (v : Value) :
    processKey existing m "rewardPoints" v =
      match pyAdd (pyOr (pyGet existing "rewardPoints") (Value.int 0))
          (pyOr v (Value.int 0)) with
      | .error e => .error e
      | .ok total => .ok (assocSet m "rewardPoints" total) := rfl

theorem merge_rewardPoints_value (A B M : Dict) (va vb : Value)
    (hA : assocGet A "rewardPoints" = some va) (hB : assocGet B "rewardPoints" = some vb)
    (hBn : (B.map Prod.fst).Nodup)
    (hva : va = Value.null ∨ ∃ n : Int, va = Value.int n)
    (hvb : vb = Value.null ∨ ∃ n : Int, vb = Value.int n)
    (hM : merge_customer_data A B = Except.ok M) :
    assocGet M "rewardPoints" = some (Value.int (pointsOrZero va + pointsOrZero vb)) := by
  unfold merge_customer_data at hM
  obtain ⟨m, m2, hm, hpk, hMk⟩ := mergeLoop_key A B A M "rewardPoints" vb hBn
    (assocGet_mem B "rewardPoints" vb hB) hM
  rw [processKey_rewardPoints] at hpk
  have hga : pyGet A "rewardPoints" = va := by simp [pyGet, hA]
  rw [hga, pyOr_int_zero va hva, pyOr_int_zero vb hvb] at hpk
  simp only [pyAdd] at hpk
  obtain rfl := Except.ok.inj hpk
  rw [hMk, assocGet_assocSet_self]

/-- C6: when both records carry a rewardPoints binding that is a
non-negative integer or null, the merged rewardPoints is the numeric sum
with null read as 0, and merging in either order yields the same value. -/
theorem rewardPoints_merge_sum_comm (A B MA MB : Dict) (va vb : Value)
    (hA : assocGet A "rewardPoints" = some va) (hB : assocGet B "rewardPoints" = some vb)
    (hAn : (A.map Prod.fst).Nodup) (hBn : (B.map Prod.fst).Nodup)
    (hva : va = Value.null ∨ ∃ n : Int, 0 ≤ n ∧ va = Value.int n)
    (hvb : vb = Value.null ∨ ∃ n : Int, 0 ≤ n ∧ vb = Value.int n)
    (hMA : merge_customer_data A B = Except.ok MA)
    (hMB : merge_customer_data B A = Except.ok MB) :
    assocGet MA "rewardPoints" = some (Value.int (pointsOrZero va + pointsOrZero vb)) ∧
    assocGet MB "rewardPoints" = some (Value.int (pointsOrZero va + pointsOrZero vb)) := by
  have hva2 : va = Value.null ∨ ∃ n : Int, va = Value.int n := by
    rcases hva with h | ⟨n, _, h⟩
    · exact Or.inl h
    · exact Or.inr ⟨n, h⟩
  have hvb2 : vb = Value.null ∨ ∃ n : Int, vb = Value.int n := by
    rcases hvb with h | ⟨n, _, h⟩
    · exact Or.inl h
    · exact Or.inr ⟨n, h⟩
  refine ⟨merge_rewardPoints_value A B MA va vb hA hB hBn hva2 hvb2 hMA, ?_⟩
  rw [Int.add_comm (pointsOrZero va) (pointsOrZero vb)]
  exact merge_rewardPoints_value B A MB vb va hB hA hAn hvb2 hva2 hMB

/-- Witness for C6 at concrete records: 10 + 5 points in both merge
orders. -/
theorem rewardPoints_merge_sum_comm_witness :
    assocGet [("rewardPoints", Value.int 15)] "rewardPoints" =
      some (Value.int (pointsOrZero (Value.int 10) + pointsOrZero (Value.int 5))) ∧
    assocGet [("rewardPoints", Value.int 15)] "rewardPoints" =
      some (Value.int (pointsOrZero (Value.int 10) + pointsOrZero (Value.int 5))) :=
  rewardPoints_merge_sum_comm [("rewardPoints", Value.int 10)]
    [("rewardPoints", Value.int 5)] [("rewardPoints", Value.int 15)]
    [("rewardPoints", Value.int 15)] (Value.int 10) (Value.int 5) (by decide) (by decide)
    (by decide) (by decide) (Or.inr ⟨10, by decide, rfl⟩) (Or.inr ⟨5, by decide, rfl⟩)
    (by decide) (by decide)

/-! ### C9 — merged timestamp keeps the earlier instant -/

/-- The instant denoted by a merged timestamp value: an ISO string is
parsed, a `datetime` object is itself. -/
def timestampInstant : Value → Option DateTime
  | .str s => fromisoformat s
  | .dt y mo dy h mi s us => some (DateTime.mk y mo dy h mi s us)
  | _ => none

theorem processKey_timestamp (existing m : Dict) (v : Value) :
    processKey existing m "timestamp" v =
      (if truthy (pyGet existing "timestamp") ∧ truthy v then
        match pyParseIso (pyGet existing "timestamp") with
        | .error e => .error e
        | .ok existingTime =>
            match pyParseIso v with
            | .error e => .error e
            | .ok newTime =>
                .ok (assocSet m "timestamp"
                  (if DateTime.lt existingTime newTime then Value.str (isoformat existingTime)
                    else Value.ofDT newTime))
      else if truthy v then .ok (assocSet m "timestamp" v)
      else .ok m) := rfl

/-- C9 counterexample: merging two records whose timestamps are ISO strings
with the incoming one earlier stores the *parsed datetime object* of the
incoming timestamp (the source's `else new_time` branch), a value equal to
neither input string — in particular not equal to the earlier timestamp
string, contradicting the claim read as value equality. -/
theorem merge_timestamp_counterexample :
    merge_customer_data [("timestamp", Value.str "2024-01-02T00:00:00")]
        [("timestamp", Value.str "2024-01-01T00:00:00")] =
      Except.ok [("timestamp", Value.ofDT (DateTime.mk 2024 1 1 0 0 0 0))] ∧
    Value.ofDT (DateTime.mk 2024 1 1 0 0 0 0) ≠ Value.str "2024-01-01T00:00:00" ∧
    Value.ofDT (DateTime.mk 2024 1 1 0 0 0 0) ≠ Value.str "2024-01-02T00:00:00" :=
  ⟨by decide, by decide, by decide⟩

/-- C9 amended: when both records carry parseable ISO timestamps, the
merged timestamp denotes the earlier of the two instants — stored as the
re-serialized ISO string of the existing timestamp when the existing one is
strictly earlier, and as the parsed `datetime` object of the incoming
timestamp otherwise — and that instant is never strictly after either
input. -/
theorem merge_timestamp_earliest_amended (E I M : Dict) (sE sN : String) (tE tN : DateTime)
    (hIn : (I.map Prod.fst).Nodup)
    (hE : assocGet E "timestamp" = some (Value.str sE)) (hsE : sE ≠ "")
    (hI : assocGet I "timestamp" = some (Value.str sN)) (hsN : sN ≠ "")
    (hpE : fromisoformat sE = some tE) (hpN : fromisoformat sN = some tN)
    (hM : merge_customer_data E I = Except.ok M) :
    assocGet M "timestamp" =
      some (if DateTime.lt tE tN then Value.str (isoformat tE) else Value.ofDT tN) ∧
    timestampInstant
        (if DateTime.lt tE tN then Value.str (isoformat tE) else Value.ofDT tN) =
      some (if DateTime.lt tE tN then tE else tN) ∧
    DateTime.lt tE (if DateTime.lt tE tN then tE else tN) = false ∧
    DateTime.lt tN (if DateTime.lt tE tN then tE else tN) = false := by
  unfold merge_customer_data at hM
  obtain ⟨m, m2, hm, hpk, hMk⟩ := mergeLoop_key E I E M "timestamp" (Value.str sN) hIn
    (assocGet_mem I "timestamp" (Value.str sN) hI) hM
  rw [processKey_timestamp] at hpk
  have hge : pyGet E "timestamp" = Value.str sE := by simp [pyGet, hE]
  rw [hge] at hpk
  rw [if_pos ⟨by simp [truthy, hsE], by simp [truthy, hsN]⟩] at hpk
  simp only [pyParseIso, hpE, hpN] at hpk
  obtain rfl := Except.ok.inj hpk
  refine ⟨by rw [hMk, assocGet_assocSet_self], ?_, ?_, ?_⟩
  · by_cases hlt : DateTime.lt tE tN = true
    · rw [if_pos hlt, if_pos hlt]
      show fromisoformat (isoformat tE) = some tE
      exact fromisoformat_isoformat tE (fromisoformat_valid sE tE hpE)
    · rw [if_neg hlt, if_neg hlt]
      rfl
  · by_cases hlt : DateTime.lt tE tN = true
    · rw [if_pos hlt]
      exact DateTime.lt_irrefl tE
    · rw [if_neg hlt]
      rw [Bool.not_eq_true] at hlt
      exact hlt
  · by_cases hlt : DateTime.lt tE tN = true
    · rw [if_pos hlt]
      exact DateTime.lt_asymm tE tN hlt
    · rw [if_neg hlt]
      exact DateTime.lt_irrefl tN

/-- Witness for C9's amended statement at the concrete counterexample
records (incoming timestamp earlier, so the `datetime` object branch is
taken). -/
theorem merge_timestamp_earliest_amended_witness :
    assocGet [("timestamp", Value.ofDT (DateTime.mk 2024 1 1 0 0 0 0))] "timestamp" =
      some (if DateTime.lt (DateTime.mk 2024 1 2 0 0 0 0) (DateTime.mk 2024 1 1 0 0 0 0)
        then Value.str (isoformat (DateTime.mk 2024 1 2 0 0 0 0))
        else Value.ofDT (DateTime.mk 2024 1 1 0 0 0 0)) ∧
    timestampInstant
        (if DateTime.lt (DateTime.mk 2024 1 2 0 0 0 0) (DateTime.mk 2024 1 1 0 0 0 0)
          then Value.str (isoformat (DateTime.mk 2024 1 2 0 0 0 0))
          else Value.ofDT (DateTime.mk 2024 1 1 0 0 0 0)) =
      some (if DateTime.lt (DateTime.mk 2024 1 2 0 0 0 0) (DateTime.mk 2024 1 1 0 0 0 0)
        then DateTime.mk 2024 1 2 0 0 0 0 else DateTime.mk 2024 1 1 0 0 0 0) ∧
    DateTime.lt (DateTime.mk 2024 1 2 0 0 0 0)
      (if DateTime.lt (DateTime.mk 2024 1 2 0 0 0 0) (DateTime.mk 2024 1 1 0 0 0 0)
        then DateTime.mk 2024 1 2 0 0 0 0 else DateTime.mk 2024 1 1 0 0 0 0) = false ∧
    DateTime.lt (DateTime.mk 2024 1 1 0 0 0 0)
      (if DateTime.lt (DateTime.mk 2024 1 2 0 0 0 0) (DateTime.mk 2024 1 1 0 0 0 0)
        then DateTime.mk 2024 1 2 0 0 0 0 else DateTime.mk 2024 1 1 0 0 0 0) = false :=
  merge_timestamp_earliest_amended [("timestamp", Value.str "2024-01-02T00:00:00")]
    [("timestamp", Value.str "2024-01-01T00:00:00")]
    [("timestamp", Value.ofDT (DateTime.mk 2024 1 1 0 0 0 0))]
    "2024-01-02T00:00:00" "2024-01-01T00:00:00"
    (DateTime.mk 2024 1 2 0 0 0 0) (DateTime.mk 2024 1 1 0 0 0 0)
    (by decide) (by decide) (by decide) (by decide) (by decide) (by decide) (by decide)
    (by decide)

/-! ### C7 — prevOrders merge dedup -/

/-- The identifier the merge derives for one order:
`order.get("order_id") or order.get("order_number")` (a non-dict order has
no identifier). -/
def orderKeyOf : Value → Value
  | .dict d => pyOr (pyGet d "order_id") (pyGet d "order_number")
  | _ => .null

/-- Modelled from the spec (for the refinement comparison only): the
`prevOrders` "set union keyed by order identifier (falling back to order
number if identifier absent)" — the existing orders followed by the
incoming orders whose identifier is absent or is not the identifier of any
existing order. -/
def specUnionByKey (ex nw : List Value) : List Value :=
  ex ++ nw.filter (fun o => !truthy (orderKeyOf o) ||
    !((ex.map orderKeyOf).any (fun k => k = orderKeyOf o)))

/-- How many orders of `l` derive the identifier `i`. -/
def countByOrderId (l : List Value) (i : Value) : Nat :=
  (l.filter (fun o => orderKeyOf o = i)).length

theorem countByOrderId_append (acc : List Value) (o i : Value) :
    countByOrderId (acc ++ [o]) i =
      countByOrderId acc i + (if orderKeyOf o = i then 1 else 0) := by
  unfold countByOrderId
  rw [List.filter_append]
  by_cases h : orderKeyOf o = i <;> simp [h]

theorem count_pos_mem (l : List Value) (i : Value) (h : 0 < countByOrderId l i) :
    ∃ o ∈ l, orderKeyOf o = i := by
  unfold countByOrderId at h
  obtain ⟨o, ho⟩ := List.exists_mem_of_ne_nil _ (List.length_pos.mp h)
  obtain ⟨hmem, heq⟩ := List.mem_filter.mp ho
  exact ⟨o, hmem, by simpa using heq⟩

theorem mem_insertSet_self (l : List Value) (v : Value) : v ∈ insertSet l v := by
  unfold insertSet
  split_ifs with h
  · exact h
  · simp

theorem mem_insertSet_of_mem (l : List Value) (v w : Value) (h : w ∈ l) :
    w ∈ insertSet l v := by
  unfold insertSet
  split_ifs
  · exact h
  · exact List.mem_append_left _ h

theorem addOrderIds_mono (ids : List Value) (o i : Value) (ids2 : List Value)
    (h : addOrderIds ids o = Except.ok ids2) (hi : i ∈ ids) : i ∈ ids2 := by
  cases o with
  | dict d =>
      simp only [addOrderIds] at h
      obtain rfl := Except.ok.inj h
      split_ifs
      · exact mem_insertSet_of_mem _ _ _ (mem_insertSet_of_mem _ _ _ hi)
      · exact mem_insertSet_of_mem _ _ _ hi
      · exact mem_insertSet_of_mem _ _ _ hi
      · exact hi
  | null => simp [addOrderIds] at h
  | str s => simp [addOrderIds] at h
  | int n => simp [addOrderIds] at h
  | list l2 => simp [addOrderIds] at h
  | dt a b c d2 e f g => simp [addOrderIds] at h

theorem addOrderIds_mem_key (ids : List Value) (d : List (String × Value))
    (ids2 : List Value) (h : addOrderIds ids (Value.dict d) = Except.ok ids2)
    (hi : truthy (pyOr (pyGet d "order_id") (pyGet d "order_number")) = true) :
    pyOr (pyGet d "order_id") (pyGet d "order_number") ∈ ids2 := by
  simp only [addOrderIds] at h
  obtain rfl := Except.ok.inj h
  by_cases ho : truthy (pyGet d "order_id") = true
  · rw [show pyOr (pyGet d "order_id") (pyGet d "order_number") = pyGet d "order_id" from
      by simp [pyOr, ho]]
    rw [if_pos ho]
    split_ifs
    · exact mem_insertSet_of_mem _ _ _ (mem_insertSet_self _ _)
    · exact mem_insertSet_self _ _
  · have hnum : pyOr (pyGet d "order_id") (pyGet d "order_number") =
        pyGet d "order_number" := by simp [pyOr, ho]
    rw [hnum] at hi ⊢
    rw [if_neg ho, if_pos hi]
    exact mem_insertSet_self _ _

theorem collectOrderIds_mono (ex : List Value) (ids ids2 : List Value) (i : Value)
    (h : collectOrderIds ids ex = Except.ok ids2) (hi : i ∈ ids) : i ∈ ids2 := by
  induction ex generalizing ids with
  | nil =>
      simp only [collectOrderIds] at h
      obtain rfl := Except.ok.inj h
      exact hi
  | cons o rest ih =>
      cases ha : addOrderIds ids o with
      | error e => simp only [collectOrderIds, ha] at h; exact Except.noConfusion h
      | ok ids1 =>
          simp only [collectOrderIds, ha] at h
          exact ih ids1 h (addOrderIds_mono ids o i ids1 ha hi)

theorem collectOrderIds_mem (ex : List Value) (ids ids2 : List Value)
    (d : List (String × Value)) (h : collectOrderIds ids ex = Except.ok ids2)
    (hmem : Value.dict d ∈ ex) (hi : truthy (orderKeyOf (Value.dict d)) = true) :
    orderKeyOf (Value.dict d) ∈ ids2 := by
  induction ex generalizing ids with
  | nil => cases hmem
  | cons o rest ih =>
      cases ha : addOrderIds ids o with
      | error e => simp only [collectOrderIds, ha] at h; exact Except.noConfusion h
      | ok ids1 =>
          simp only [collectOrderIds, ha] at h
          rcases List.mem_cons.mp hmem with heq | hmem2
          · rw [← heq] at ha
            exact collectOrderIds_mono rest ids1 ids2 _ h
              (addOrderIds_mem_key ids d ids1 ha hi)
          · exact ih ids1 h hmem2

theorem derivedOrderId_key (o did : Value) (hd : derivedOrderId o = Except.ok did) :
    orderKeyOf o = did := by
  cases o with
  | dict d =>
      simp only [derivedOrderId] at hd
      obtain rfl := Except.ok.inj hd
      rfl
  | null => simp [derivedOrderId] at hd
  | str s => simp [derivedOrderId] at hd
  | int n => simp [derivedOrderId] at hd
  | list l2 => simp [derivedOrderId] at hd
  | dt a b c d2 e f g => simp [derivedOrderId] at hd

theorem mergeNewOrders_count (nw : List Value) (ids acc res : List Value) (i : Value)
    (h : mergeNewOrders ids acc nw = Except.ok res) (hi : i ∈ ids)
    (hti : truthy i = true) : countByOrderId res i = countByOrderId acc i := by
  induction nw generalizing ids acc with
  | nil =>
      simp only [mergeNewOrders] at h
      obtain rfl := Except.ok.inj h
      rfl
  | cons o rest ih =>
      cases hd : derivedOrderId o with
      | error e => simp only [mergeNewOrders, hd] at h; exact Except.noConfusion h
      | ok did =>
          simp only [mergeNewOrders, hd] at h
          have hok : orderKeyOf o = did := derivedOrderId_key o did hd
          split_ifs at h with h1 h2
          · cases ha : addOrderIds ids o with
            | error e => simp only [ha] at h; exact Except.noConfusion h
            | ok ids2 =>
                simp only [ha] at h
                rw [ih ids2 (acc ++ [o]) h (addOrderIds_mono ids o i ids2 ha hi),
                  countByOrderId_append]
                have hne : ¬ orderKeyOf o = i := by
                  rw [hok]
                  intro hcon
                  exact h1.2 (hcon ▸ hi)
                simp [hne]
          · exact ih ids acc h hi
          · rw [ih ids (acc ++ [o]) h hi, countByOrderId_append]
            have hne : ¬ orderKeyOf o = i := by
              rw [hok]
              intro hcon
              rw [hcon] at h2
              exact h2 hti
            simp [hne]

theorem mergeNewOrders_subset (nw : List Value) (ids acc res : List Value)
    (h : mergeNewOrders ids acc nw = Except.ok res) : ∀ x ∈ acc, x ∈ res := by
  induction nw generalizing ids acc with
  | nil =>
      simp only [mergeNewOrders] at h
      obtain rfl := Except.ok.inj h
      exact fun x hx => hx
  | cons o rest ih =>
      cases hd : derivedOrderId o with
      | error e => simp only [mergeNewOrders, hd] at h; exact Except.noConfusion h
      | ok did =>
          simp only [mergeNewOrders, hd] at h
          split_ifs at h with h1 h2
          · cases ha : addOrderIds ids o with
            | error e => simp only [ha] at h; exact Except.noConfusion h
            | ok ids2 =>
                simp only [ha] at h
                exact fun x hx => ih ids2 (acc ++ [o]) h x (List.mem_append_left _ hx)
          · exact ih ids acc h
          · exact fun x hx => ih ids (acc ++ [o]) h x (List.mem_append_left _ hx)

theorem mergeNewOrders_keyless_mem (nw : List Value) (ids acc res : List Value)
    (o0 : Value) (h : mergeNewOrders ids acc nw = Except.ok res) (hm : o0 ∈ nw)
    (hk : truthy (orderKeyOf o0) = false) : o0 ∈ res := by
  induction nw generalizing ids acc with
  | nil => cases hm
  | cons o rest ih =>
      cases hd : derivedOrderId o with
      | error e => simp only [mergeNewOrders, hd] at h; exact Except.noConfusion h
      | ok did =>
          simp only [mergeNewOrders, hd] at h
          have hok : orderKeyOf o = did := derivedOrderId_key o did hd
          rcases List.mem_cons.mp hm with rfl | hm2
          · rw [hok] at hk
            split_ifs at h with h1 h2
            · rw [h1.1] at hk
              cases hk
            · rw [h2] at hk
              cases hk
            · exact mergeNewOrders_subset rest ids (acc ++ [o0]) res h o0
                (List.mem_append_right _ (by simp))
          · split_ifs at h with h1 h2
            · cases ha : addOrderIds ids o with
              | error e => simp only [ha] at h; exact Except.noConfusion h
              | ok ids2 =>
                  simp only [ha] at h
                  exact ih ids2 (acc ++ [o]) h hm2
            · exact ih ids acc h hm2
            · exact ih ids (acc ++ [o]) h hm2

theorem processKey_prevOrders (existing m : Dict) (v : Value) :
    processKey existing m "prevOrders" v =
      (match asList (pyOr (pyGet existing "prevOrders") (Value.list [])) with
        | .error e => .error e
        | .ok exOrders =>
            match asList (pyOr v (Value.list [])) with
            | .error e => .error e
            | .ok newOrders =>
                match mergePrevOrders exOrders newOrders with
                | .error e => .error e
                | .ok mergedOrders =>
                    .ok (assocSet m "prevOrders"
                      (if mergedOrders = [] then Value.null
                        else Value.list mergedOrders))) := rfl

/-- C7 counterexample: the existing record has one order with identifier
"k" (and order number "i"); the incoming record has one order whose
identifier (by fallback to order number) is "i" — a fresh identifier, so
the spec's union keyed by identifier keeps both orders.  The code drops the
incoming order, because its dedup set contains every `order_id` *and*
`order_number` of the existing orders, not just their identifiers. -/
theorem prevOrders_union_counterexample :
    merge_customer_data
        [("prevOrders", Value.list [Value.dict
          [("order_id", Value.str "k"), ("order_number", Value.str "i")]])]
        [("prevOrders", Value.list [Value.dict
          [("order_number", Value.str "i"), ("date", Value.str "x")]])] =
      Except.ok [("prevOrders", Value.list [Value.dict
        [("order_id", Value.str "k"), ("order_number", Value.str "i")]])] ∧
    specUnionByKey
        [Value.dict [("order_id", Value.str "k"), ("order_number", Value.str "i")]]
        [Value.dict [("order_number", Value.str "i"), ("date", Value.str "x")]] =
      [Value.dict [("order_id", Value.str "k"), ("order_number", Value.str "i")],
        Value.dict [("order_number", Value.str "i"), ("date", Value.str "x")]] ∧
    orderKeyOf (Value.dict [("order_number", Value.str "i"), ("date", Value.str "x")]) ≠
      orderKeyOf (Value.dict [("order_id", Value.str "k"), ("order_number", Value.str "i")]) :=
  ⟨by decide, by decide, by decide⟩

/-- C7 amended: the merged `prevOrders` is the existing list followed by
those incoming orders whose derived identifier is absent or unseen, where
dedup is keyed on *all* `order_id` and `order_number` values of the
existing (and already-kept incoming) orders, not only on their derived
identifiers.  Consequently an identifier carried by exactly one existing
order still occurs exactly once after merging records that share it, and
identifier-less incoming orders are appended unconditionally. -/
theorem prevOrders_merge_dedup_amended (A B M : Dict) (ex nwl : List Value)
    (hA : pyGet A "prevOrders" = Value.list ex)
    (hB : assocGet B "prevOrders" = some (Value.list nwl))
    (hBn : (B.map Prod.fst).Nodup)
    (hM : merge_customer_data A B = Except.ok M) :
    (∀ i, truthy i = true → countByOrderId ex i = 1 →
      ∃ mo, assocGet M "prevOrders" = some (Value.list mo) ∧ countByOrderId mo i = 1) ∧
    (∀ o ∈ nwl, truthy (orderKeyOf o) = false →
      ∃ mo, assocGet M "prevOrders" = some (Value.list mo) ∧ o ∈ mo) := by
  unfold merge_customer_data at hM
  obtain ⟨m, m2, hm, hpk, hMk⟩ := mergeLoop_key A B A M "prevOrders" (Value.list nwl) hBn
    (assocGet_mem B "prevOrders" (Value.list nwl) hB) hM
  rw [processKey_prevOrders, hA] at hpk
  have hor : pyOr (Value.list ex) (Value.list []) = Value.list ex := by
    by_cases hx : ex = []
    · subst hx; rfl
    · simp [pyOr, truthy, hx]
  have hor2 : pyOr (Value.list nwl) (Value.list []) = Value.list nwl := by
    by_cases hx : nwl = []
    · subst hx; rfl
    · simp [pyOr, truthy, hx]
  rw [hor, hor2] at hpk
  simp only [asList] at hpk
  cases hmp : mergePrevOrders ex nwl with
  | error e => simp only [hmp] at hpk; exact Except.noConfusion hpk
  | ok res =>
      simp only [hmp] at hpk
      obtain rfl := Except.ok.inj hpk
      unfold mergePrevOrders at hmp
      cases hcol : collectOrderIds [] ex with
      | error e => simp only [hcol] at hmp; exact Except.noConfusion hmp
      | ok ids =>
          simp only [hcol] at hmp
          constructor
          · intro i hti hcount
            obtain ⟨o, hoex, hokey⟩ := count_pos_mem ex i (by omega)
            obtain ⟨d, rfl⟩ : ∃ d, o = Value.dict d := by
              cases o with
              | dict d => exact ⟨d, rfl⟩
              | null => rw [← hokey] at hti; cases hti
              | str s => rw [← hokey] at hti; cases hti
              | int n => rw [← hokey] at hti; cases hti
              | list l2 => rw [← hokey] at hti; cases hti
              | dt a b c d2 e f g => rw [← hokey] at hti; cases hti
            have hids : orderKeyOf (Value.dict d) ∈ ids :=
              collectOrderIds_mem ex [] ids d hcol hoex (by rw [hokey]; exact hti)
            rw [hokey] at hids
            have hcnt : countByOrderId res i = countByOrderId ex i :=
              mergeNewOrders_count nwl ids ex res i hmp hids hti
            have hresne : ¬ res = [] := by
              intro hcon
              rw [hcon] at hcnt
              rw [hcount] at hcnt
              simp [countByOrderId] at hcnt
            refine ⟨res, ?_, by rw [hcnt, hcount]⟩
            rw [hMk, assocGet_assocSet_self, if_neg hresne]
          · intro o homem hkey
            have hores : o ∈ res := mergeNewOrders_keyless_mem nwl ids ex res o hmp homem hkey
            have hresne : ¬ res = [] := by
              intro hcon
              rw [hcon] at hores
              cases hores
            refine ⟨res, ?_, hores⟩
            rw [hMk, assocGet_assocSet_self, if_neg hresne]

/-- Witness for C7's amended statement: merging two records that share the
order identifier "A" keeps it exactly once, and an identifier-less incoming
order is appended. -/
theorem prevOrders_merge_dedup_amended_witness :
    (∃ mo, assocGet [("prevOrders", Value.list [Value.dict [("order_id", Value.str "A")],
        Value.dict [("note", Value.str "n")]])] "prevOrders" =
        some (Value.list mo) ∧ countByOrderId mo (Value.str "A") = 1) ∧
    (∃ mo, assocGet [("prevOrders", Value.list [Value.dict [("order_id", Value.str "A")],
        Value.dict [("note", Value.str "n")]])] "prevOrders" =
        some (Value.list mo) ∧ Value.dict [("note", Value.str "n")] ∈ mo) :=
  ⟨(prevOrders_merge_dedup_amended
      [("prevOrders", Value.list [Value.dict [("order_id", Value.str "A")]])]
      [("prevOrders", Value.list [Value.dict [("order_id", Value.str "A")],
        Value.dict [("note", Value.str "n")]])]
      [("prevOrders", Value.list [Value.dict [("order_id", Value.str "A")],
        Value.dict [("note", Value.str "n")]])]
      [Value.dict [("order_id", Value.str "A")]]
      [Value.dict [("order_id", Value.str "A")], Value.dict [("note", Value.str "n")]]
      (by decide) (by decide) (by decide) (by decide)).1 (Value.str "A") (by decide)
      (by decide),
    (prevOrders_merge_dedup_amended
      [("prevOrders", Value.list [Value.dict [("order_id", Value.str "A")]])]
      [("prevOrders", Value.list [Value.dict [("order_id", Value.str "A")],
        Value.dict [("note", Value.str "n")]])]
      [("prevOrders", Value.list [Value.dict [("order_id", Value.str "A")],
        Value.dict [("note", Value.str "n")]])]
      [Value.dict [("order_id", Value.str "A")]]
      [Value.dict [("order_id", Value.str "A")], Value.dict [("note", Value.str "n")]]
      (by decide) (by decide) (by decide) (by decide)).2
      (Value.dict [("note", Value.str "n")]) (by decide) (by decide)⟩

/-! ### C4 — write under remote outage and the subsequent list -/

theorem customerDataOf_no_timestamp (p : CustomerParams) :
    containsKey (customerDataOf p) "timestamp" = false := by
  simp [containsKey, customerDataOf, assocGet]

/-- The record `enter_customer_info` stores for a fresh customer: the built
field dict with the request timestamp appended. -/
def storedCustomerRecord (p : CustomerParams) (now : String) : Dict :=
  assocSet (customerDataOf p) "timestamp" (Value.str now)

/-- C4 counterexample: with the remote store failing on every attempt,
`write_customer({name: "Bob"})` does return a success status with a
`file://` fallback location — but the subsequent list (`get_storage`) reads
only the remote store, so it reports a storage error instead of returning
the record written to the local fallback. -/
theorem write_customer_fallback_list_counterexample :
    enter_customer_info envRemoteDown emptyStore bobParams "2024-01-01T00:00:00" "id1" =
      Except.ok (ToolResult.mk "success"
        (some (storedCustomerRecord bobParams "2024-01-01T00:00:00"))
        (some "file://storage_fallback/customer_info/id1.json")
        (enteredFieldsOf (storedCustomerRecord bobParams "2024-01-01T00:00:00"))
        (missingFieldsOf (storedCustomerRecord bobParams "2024-01-01T00:00:00"))
        (some false),
        Store.mk [] [("storage_fallback/customer_info/id1.json",
          storedCustomerRecord bobParams "2024-01-01T00:00:00")]) ∧
    get_storage envRemoteDown
        (Store.mk [] [("storage_fallback/customer_info/id1.json",
          storedCustomerRecord bobParams "2024-01-01T00:00:00")]) =
      Except.error "Error loading data from GCS" :=
  ⟨by decide, by decide⟩

/-- C4 amended: with the remote store failing on every attempt (and so also
on listing) but the local disk healthy, `write_customer` on any record with
substantive data returns a success status with a `file://` fallback
location, and the record is written to the local fallback path — but the
subsequent list, `get_storage`, reads only the remote store and reports a
storage error; the fallback record is not returned by any list. -/
theorem write_customer_fallback_amended (env : Env) (st : Store) (p : CustomerParams)
    (now entryId : String) (hb : env.bucketInit = true) (hfail : remoteAllFail env = true)
    (hlist : env.listOk = false) (hlocal : env.localWriteOk = true)
    (hdata : hasData (customerDataOf p) = true) :
    enter_customer_info env st p now entryId =
      Except.ok (ToolResult.mk "success" (some (storedCustomerRecord p now))
        (some ("file://" ++ fallbackPath "customer_info" entryId))
        (enteredFieldsOf (storedCustomerRecord p now))
        (missingFieldsOf (storedCustomerRecord p now)) (some false),
        Store.mk st.remote (assocSet st.fallbackFiles (fallbackPath "customer_info" entryId)
          (storedCustomerRecord p now))) ∧
    assocGet (assocSet st.fallbackFiles (fallbackPath "customer_info" entryId)
        (storedCustomerRecord p now)) (fallbackPath "customer_info" entryId) =
      some (storedCustomerRecord p now) ∧
    get_storage env (Store.mk st.remote (assocSet st.fallbackFiles
        (fallbackPath "customer_info" entryId) (storedCustomerRecord p now))) =
      Except.error "Error loading data from GCS" := by
  have hfind : find_existing_customer env st p.name p.email = none := by
    simp [find_existing_customer, hb, hlist]
  have hts := customerDataOf_no_timestamp p
  have hupload : upload_json_to_gcs env st
      (assocSet (customerDataOf p) "timestamp" (Value.str now)) "customer_info" entryId =
      (some ("file://" ++ fallbackPath "customer_info" entryId),
        Store.mk st.remote (assocSet st.fallbackFiles (fallbackPath "customer_info" entryId)
          (assocSet (customerDataOf p) "timestamp" (Value.str now)))) := by
    simp [upload_json_to_gcs, hb, (firstUploadSuccess_none_iff env).mpr hfail, hlocal]
  refine ⟨?_, assocGet_assocSet_self .., by simp [get_storage, hb, hlist]⟩
  simp [enter_customer_info, hdata, hfind, hts, finishCustomerWrite, hupload,
    storedCustomerRecord]

/-- Witness for C4's amended statement at the concrete outage environment. -/
theorem write_customer_fallback_amended_witness :
    enter_customer_info envRemoteDown emptyStore bobParams "2024-01-01T00:00:00" "id1" =
      Except.ok (ToolResult.mk "success"
        (some (storedCustomerRecord bobParams "2024-01-01T00:00:00"))
        (some ("file://" ++ fallbackPath "customer_info" "id1"))
        (enteredFieldsOf (storedCustomerRecord bobParams "2024-01-01T00:00:00"))
        (missingFieldsOf (storedCustomerRecord bobParams "2024-01-01T00:00:00"))
        (some false),
        Store.mk emptyStore.remote (assocSet emptyStore.fallbackFiles
          (fallbackPath "customer_info" "id1")
          (storedCustomerRecord bobParams "2024-01-01T00:00:00"))) ∧
    assocGet (assocSet emptyStore.fallbackFiles (fallbackPath "customer_info" "id1")
        (storedCustomerRecord bobParams "2024-01-01T00:00:00"))
        (fallbackPath "customer_info" "id1") =
      some (storedCustomerRecord bobParams "2024-01-01T00:00:00") ∧
    get_storage envRemoteDown (Store.mk emptyStore.remote
        (assocSet emptyStore.fallbackFiles (fallbackPath "customer_info" "id1")
          (storedCustomerRecord bobParams "2024-01-01T00:00:00"))) =
      Except.error "Error loading data from GCS" :=
  write_customer_fallback_amended envRemoteDown emptyStore bobParams "2024-01-01T00:00:00"
    "id1" (by decide) (by decide) (by decide) (by decide) (by decide)

/-! ### C5 — persistence is reported, except for uploaded files -/

theorem upload_stores (env : Env) (st : Store) (d : Dict) (folder fileId path : String)
    (st2 : Store) (h : upload_json_to_gcs env st d folder fileId = (some path, st2)) :
    assocGet st2.remote (blobKey folder fileId) = some d ∨
    assocGet st2.fallbackFiles (fallbackPath folder fileId) = some d := by
  unfold upload_json_to_gcs at h
  cases hb : env.bucketInit with
  | true =>
      cases hup : firstUploadSuccess env 3 0 with
      | some i =>
          simp only [hb, Bool.not_true, Bool.false_eq_true, if_false, hup] at h
          obtain ⟨h1, h2⟩ := Prod.mk.inj h
          rw [← h2]
          exact Or.inl (assocGet_assocSet_self ..)
      | none =>
          simp only [hb, Bool.not_true, Bool.false_eq_true, if_false, hup] at h
          cases hl : env.localWriteOk with
          | true =>
              rw [if_pos hl] at h
              obtain ⟨h1, h2⟩ := Prod.mk.inj h
              rw [← h2]
              exact Or.inr (assocGet_assocSet_self ..)
          | false =>
              rw [if_neg (by rw [hl]; exact Bool.false_ne_true)] at h
              obtain ⟨h1, h2⟩ := Prod.mk.inj h
              cases h1
  | false =>
      simp only [hb, Bool.not_false, if_true] at h
      cases hl : env.localWriteOk with
      | true =>
          rw [if_pos hl] at h
          obtain ⟨h1, h2⟩ := Prod.mk.inj h
          rw [← h2]
          exact Or.inr (assocGet_assocSet_self ..)
      | false =>
          rw [if_neg (by rw [hl]; exact Bool.false_ne_true)] at h
          obtain ⟨h1, h2⟩ := Prod.mk.inj h
          cases h1

theorem finishCustomerWrite_success (env : Env) (st0 : Store) (cd : Dict) (eid : String)
    (b : Bool) (res : ToolResult) (st2 : Store)
    (h : finishCustomerWrite env st0 cd eid b = (res, st2)) (hs : res.status = "success") :
    res.data = some cd ∧ (∃ path, res.gcs_path = some path) ∧
      (assocGet st2.remote (blobKey "customer_info" eid) = some cd ∨
        assocGet st2.fallbackFiles (fallbackPath "customer_info" eid) = some cd) := by
  unfold finishCustomerWrite at h
  cases hu : upload_json_to_gcs env st0 cd "customer_info" eid with
  | mk o s2 =>
      cases o with
      | none =>
          rw [hu] at h
          obtain ⟨h1, h2⟩ := Prod.mk.inj h
          rw [← h1] at hs
          simp at hs
      | some path =>
          rw [hu] at h
          obtain ⟨h1, h2⟩ := Prod.mk.inj h
          refine ⟨by rw [← h1], ⟨path, by rw [← h1]⟩, ?_⟩
          rw [← h2]
          exact upload_stores env st0 cd "customer_info" eid path s2 hu

theorem finishCustomerWrite_status (env : Env) (st0 : Store) (cd : Dict) (eid : String)
    (b : Bool) (res : ToolResult) (st2 : Store)
    (h : finishCustomerWrite env st0 cd eid b = (res, st2)) :
    res.status = "success" ∨ res.status = "error" := by
  unfold finishCustomerWrite at h
  cases hu : upload_json_to_gcs env st0 cd "customer_info" eid with
  | mk o s2 =>
      cases o with
      | none =>
          rw [hu] at h
          obtain ⟨h1, h2⟩ := Prod.mk.inj h
          exact Or.inr (by rw [← h1])
      | some path =>
          rw [hu] at h
          obtain ⟨h1, h2⟩ := Prod.mk.inj h
          exact Or.inl (by rw [← h1])

/-- C5 counterexample: with remote and local storage both failing,
`extract_data_from_file` persists nothing — the audit upload returns `None`
and the store is unchanged — yet the returned status is `"success"`,
because the source discards the result of `_upload_json_to_gcs`. -/
theorem extract_file_success_without_persistence :
    (extract_data_from_file envAllDown emptyStore "hello world" none []
      "2024-01-01T00:00:00" "id9").1.status = "success" ∧
    (extract_data_from_file envAllDown emptyStore "hello world" none []
      "2024-01-01T00:00:00" "id9").2 = emptyStore ∧
    (upload_json_to_gcs envAllDown emptyStore
      [("content_preview", Value.str "hello world"), ("file_type", Value.str "unknown"),
        ("timestamp", Value.str "2024-01-01T00:00:00"),
        ("extraction_confidence", Value.int 0), ("data_type", Value.str "unknown")]
      "uploaded_files" "id9").1 = none :=
  ⟨by decide, by decide, by decide⟩

/-- C5 amended: the customer and financial write tools never report success
without persisting — a successful result carries the stored record and its
location, and the record is retrievable from the remote store or the local
fallback; any other outcome is reported as `status = "error"`.  (The
uploaded-file audit write in `extract_data_from_file` violates the claim:
it reports success even when nothing was persisted.) -/
theorem writes_report_persistence_amended (env : Env) (st : Store) (p : CustomerParams)
    (q : FinancialParams) (now entryId : String) :
    (∀ res st2, enter_customer_info env st p now entryId = Except.ok (res, st2) →
      res.status = "success" →
      ∃ d, res.data = some d ∧ (∃ path, res.gcs_path = some path) ∧
        (assocGet st2.remote (blobKey "customer_info" entryId) = some d ∨
          assocGet st2.fallbackFiles (fallbackPath "customer_info" entryId) = some d)) ∧
    (∀ res st2, enter_customer_info env st p now entryId = Except.ok (res, st2) →
      res.status ≠ "success" → res.status = "error") ∧
    (∀ res st2, enter_financial_data env st q now entryId = (res, st2) →
      res.status = "success" →
      res.data = some (financialDataOf q) ∧ (∃ path, res.gcs_path = some path) ∧
        (assocGet st2.remote (blobKey "financial_data" entryId) =
          some (financialDataOf q ++ [("timestamp", Value.str now)]) ∨
          assocGet st2.fallbackFiles (fallbackPath "financial_data" entryId) =
          some (financialDataOf q ++ [("timestamp", Value.str now)]))) ∧
    (∀ res st2, enter_financial_data env st q now entryId = (res, st2) →
      res.status ≠ "success" → res.status = "error") := by
  have hcust : ∀ res st2, enter_customer_info env st p now entryId = Except.ok (res, st2) →
      (res.status = "success" →
        ∃ d, res.data = some d ∧ (∃ path, res.gcs_path = some path) ∧
          (assocGet st2.remote (blobKey "customer_info" entryId) = some d ∨
            assocGet st2.fallbackFiles (fallbackPath "customer_info" entryId) = some d)) ∧
      (res.status = "success" ∨ res.status = "error") := by
    intro res st2 hok
    unfold enter_customer_info at hok
    cases hd : hasData (customerDataOf p) with
    | false =>
        simp only [hd, Bool.not_false, if_true] at hok
        obtain ⟨h1, h2⟩ := Prod.mk.inj (Except.ok.inj hok)
        refine ⟨fun hs => ?_, Or.inr (by rw [← h1])⟩
        rw [← h1] at hs
        exact absurd hs (by decide)
    | true =>
        simp only [hd, Bool.not_true, Bool.false_eq_true, if_false] at hok
        cases hf : find_existing_customer env st p.name p.email with
        | some pr =>
            obtain ⟨ex, bn⟩ := pr
            simp only [hf] at hok
            cases hm : merge_customer_data ex (customerDataOf p) with
            | error e => simp only [hm] at hok; exact Except.noConfusion hok
            | ok merged =>
                simp only [hm] at hok
                have hfc := Except.ok.inj hok
                refine ⟨fun hs => ?_, finishCustomerWrite_status env _ _ entryId true res
                  st2 hfc⟩
                obtain ⟨hdata, hpath, hstored⟩ :=
                  finishCustomerWrite_success env _ _ entryId true res st2 hfc hs
                exact ⟨_, hdata, hpath, hstored⟩
        | none =>
            simp only [hf] at hok
            have hfc := Except.ok.inj hok
            refine ⟨fun hs => ?_, finishCustomerWrite_status env _ _ entryId false res
              st2 hfc⟩
            obtain ⟨hdata, hpath, hstored⟩ :=
              finishCustomerWrite_success env _ _ entryId false res st2 hfc hs
            exact ⟨_, hdata, hpath, hstored⟩
  have hfin : ∀ res st2, enter_financial_data env st q now entryId = (res, st2) →
      (res.status = "success" →
        res.data = some (financialDataOf q) ∧ (∃ path, res.gcs_path = some path) ∧
          (assocGet st2.remote (blobKey "financial_data" entryId) =
            some (financialDataOf q ++ [("timestamp", Value.str now)]) ∨
            assocGet st2.fallbackFiles (fallbackPath "financial_data" entryId) =
            some (financialDataOf q ++ [("timestamp", Value.str now)]))) ∧
      (res.status = "success" ∨ res.status = "error") := by
    intro res st2 hok
    unfold enter_financial_data at hok
    cases hd : financialHasData q with
    | false =>
        simp only [hd, Bool.not_false, if_true] at hok
        obtain ⟨h1, h2⟩ := Prod.mk.inj hok
        refine ⟨fun hs => ?_, Or.inr (by rw [← h1])⟩
        rw [← h1] at hs
        exact absurd hs (by decide)
    | true =>
        simp only [hd, Bool.not_true, Bool.false_eq_true, if_false] at hok
        cases hu : upload_json_to_gcs env st
            (financialDataOf q ++ [("timestamp", Value.str now)]) "financial_data"
            entryId with
        | mk o s2 =>
            cases o with
            | none =>
                rw [hu] at hok
                obtain ⟨h1, h2⟩ := Prod.mk.inj hok
                refine ⟨fun hs => ?_, Or.inr (by rw [← h1])⟩
                rw [← h1] at hs
                simp at hs
            | some path =>
                rw [hu] at hok
                obtain ⟨h1, h2⟩ := Prod.mk.inj hok
                refine ⟨fun hs => ⟨by rw [← h1], ⟨path, by rw [← h1]⟩, ?_⟩,
                  Or.inl (by rw [← h1])⟩
                rw [← h2]
                exact upload_stores env st _ "financial_data" entryId path s2 hu
  refine ⟨fun res st2 hok hs => (hcust res st2 hok).1 hs,
    fun res st2 hok hns => ?_,
    fun res st2 hok hs => (hfin res st2 hok).1 hs,
    fun res st2 hok hns => ?_⟩
  · rcases (hcust res st2 hok).2 with h | h
    · exact absurd h hns
    · exact h
  · rcases (hfin res st2 hok).2 with h | h
    · exact absurd h hns
    · exact h

/-- Witness for C5's amended statement: the concrete outage write from C4
through the customer conjunct of the theorem. -/
theorem writes_report_persistence_amended_witness :
    ∃ d, (ToolResult.mk "success"
        (some (storedCustomerRecord bobParams "2024-01-01T00:00:00"))
        (some "file://storage_fallback/customer_info/id1.json")
        (enteredFieldsOf (storedCustomerRecord bobParams "2024-01-01T00:00:00"))
        (missingFieldsOf (storedCustomerRecord bobParams "2024-01-01T00:00:00"))
        (some false)).data = some d ∧
      (∃ path, (ToolResult.mk "success"
        (some (storedCustomerRecord bobParams "2024-01-01T00:00:00"))
        (some "file://storage_fallback/customer_info/id1.json")
        (enteredFieldsOf (storedCustomerRecord bobParams "2024-01-01T00:00:00"))
        (missingFieldsOf (storedCustomerRecord bobParams "2024-01-01T00:00:00"))
        (some false)).gcs_path = some path) ∧
      (assocGet (Store.mk [] [("storage_fallback/customer_info/id1.json",
          storedCustomerRecord bobParams "2024-01-01T00:00:00")]).remote
          (blobKey "customer_info" "id1") = some d ∨
        assocGet (Store.mk [] [("storage_fallback/customer_info/id1.json",
          storedCustomerRecord bobParams "2024-01-01T00:00:00")]).fallbackFiles
          (fallbackPath "customer_info" "id1") = some d) :=
  (writes_report_persistence_amended envRemoteDown emptyStore bobParams
    (FinancialParams.mk none none none none none none none) "2024-01-01T00:00:00"
    "id1").1
    (ToolResult.mk "success"
      (some (storedCustomerRecord bobParams "2024-01-01T00:00:00"))
      (some "file://storage_fallback/customer_info/id1.json")
      (enteredFieldsOf (storedCustomerRecord bobParams "2024-01-01T00:00:00"))
      (missingFieldsOf (storedCustomerRecord bobParams "2024-01-01T00:00:00"))
      (some false))
    (Store.mk [] [("storage_fallback/customer_info/id1.json",
      storedCustomerRecord bobParams "2024-01-01T00:00:00")])
    (by decide) (by decide)

end Atatl
